import Mathlib

/-!
# Verification of the social-music-app notification core

A shallow embedding of the Convex backend of the social music app
(`convex/social.ts`, `convex/posts.ts`, `convex/player.ts`, `convex/push.ts`,
`convex/notifications.ts`, `convex/growth.ts`) together with proofs of the
spec's testable properties.

Modelling conventions:
* Document ids are `Nat`, drawn from a single fresh-id counter `DB.nextId`.
* `Date.now()` is an explicit `now : Nat` parameter.
* Convex `.unique()` index lookups are modelled as first-match lookups
  (`List.find?`); uniqueness of the underlying rows is a schema invariant and
  appears as a hypothesis where the distinction could matter.
* Group keys: the spec demands the group-key design "be reproduced exactly in
  semantics, not literal format", so keys are a structured sum type rather
  than colon-joined strings.  Every key produced by the code renders as a
  non-empty string, so the JS truthiness test `if (args.groupKey)` coincides
  with presence of the key (`Option.isSome`).
* Mutations return `Except String`; a thrown error aborts the mutation with
  no partial writes, mirroring Convex's transactional rollback on throw.
* Queries cannot write; where a claim says a read "leaves storage unchanged"
  the query is modelled as returning the (unchanged) state alongside its
  result.
-/

set_option maxRecDepth 8000
set_option maxHeartbeats 1000000

namespace SocialMusic

abbrev UserId := Nat
abbrev PostId := Nat
abbrev CommentId := Nat
abbrev NotifId := Nat

inductive NotificationType
  | like | comment | follow | mention | repost | share
  | friend_listening | network_trending | system_update
deriving DecidableEq

/-- Structured group keys, one constructor per key format in the source:
`follow:{actor}:{recipient}`, `like:{post}:{actor}`, `repost:{post}:{actor}`,
`comment:{comment}`, `mention:{comment}:{mentioned}`, `share:{post}:{actor}`,
`friend_listening:{actor}:{trackUrl}`,
`network_trending:{post}:{threshold}:{follower}`,
`system_update:{recipient}:{message}`. -/
inductive GroupKey
  | follow (actorId recipientId : UserId)
  | like (postId : PostId) (actorId : UserId)
  | repost (postId : PostId) (actorId : UserId)
  | comment (commentId : CommentId)
  | mention (commentId : CommentId) (mentionedId : UserId)
  | share (postId : PostId) (actorId : UserId)
  | friendListening (actorId : UserId) (trackUrl : String)
  | networkTrending (postId : PostId) (threshold : Nat) (followerId : UserId)
  | systemUpdate (recipientId : UserId) (message : String)
deriving DecidableEq

/-- `notifications` table row (schema.ts). -/
structure Notification where
  recipientId : UserId
  actorId : Option UserId
  type : NotificationType
  postId : Option PostId
  commentId : Option CommentId
  profileId : Option UserId
  message : String
  groupKey : Option GroupKey
  readAt : Option Nat
  createdAt : Nat
deriving DecidableEq

/-- Auth `users` table row (the fields the core reads). -/
structure UserRec where
  id : UserId
  name : Option String
  email : Option String
  isAnonymous : Bool
deriving DecidableEq

/-- `profiles` table row (the fields the core reads). -/
structure Profile where
  userId : UserId
  displayName : String
deriving DecidableEq

inductive PostType
  | song | playlist | thought
deriving DecidableEq

/-- `posts` table row.  `repostsCount`/`playCount` are optional in the schema
and read back with `?? 0` everywhere, so they are plain `Nat` here.
`creationTime` is the system `_creationTime` field. -/
structure Post where
  id : PostId
  authorId : UserId
  type : PostType
  title : String
  content : String
  spotifyUrl : Option String
  appleMusicUrl : Option String
  youtubeUrl : Option String
  tags : List String
  likesCount : Nat
  commentsCount : Nat
  repostsCount : Nat
  playCount : Nat
  creationTime : Nat
deriving DecidableEq

structure Follow where
  followerId : UserId
  followingId : UserId
deriving DecidableEq

structure LikeRow where
  userId : UserId
  postId : PostId
deriving DecidableEq

structure RepostRow where
  userId : UserId
  postId : PostId
deriving DecidableEq

structure CommentRec where
  id : CommentId
  authorId : UserId
  postId : PostId
  content : String
  mentionedUserIds : List UserId
deriving DecidableEq

/-- `userPresence` table row (player.ts). -/
structure PresenceRec where
  userId : UserId
  currentTrackId : Option String
  trackTitle : Option String
  trackUrl : Option String
  startedAt : Option Nat
  lastSeenAt : Nat
  isActive : Bool
deriving DecidableEq

/-- `playbackStates` table row (player.ts).  `currentTime`/`duration` are
opaque stored numbers never used arithmetically by the core. -/
structure PlaybackState where
  userId : UserId
  trackUrl : Option String
  trackTitle : Option String
  trackThumbnail : Option String
  currentTime : Nat
  duration : Nat
  isPlaying : Bool
  updatedAt : Nat
deriving DecidableEq

/-- `pushSubscriptions` table row (notifications.ts). -/
structure PushSub where
  id : Nat
  userId : UserId
  endpoint : String
  p256dh : String
  auth : String
  userAgent : Option String
  createdAt : Nat
  updatedAt : Nat
deriving DecidableEq

structure ShareRef where
  code : String
  postId : PostId
  creatorId : UserId
  createdAt : Nat
  clicks : Nat
deriving DecidableEq

structure PlayEvent where
  postId : PostId
  authorId : UserId
  listenerId : UserId
  playedAt : Nat
  source : Option String
  trackUrl : Option String
deriving DecidableEq

/-- `growthOnboarding` table row (growth.ts). -/
structure OnboardRec where
  userId : UserId
  seedFollowedAt : Option Nat
  createdAt : Nat
  updatedAt : Nat
deriving DecidableEq

/-- The document store.  `posts` and `notifications` are kept in insertion
order (ascending `_creationTime`); `scheduledPush` records the notification
ids handed to `ctx.scheduler.runAfter(0, dispatchPushForNotification, ...)`. -/
structure DB where
  users : List UserRec
  profiles : List Profile
  posts : List Post
  follows : List Follow
  likes : List LikeRow
  reposts : List RepostRow
  comments : List CommentRec
  notifications : List (NotifId × Notification)
  userPresence : List PresenceRec
  playbackStates : List PlaybackState
  pushSubscriptions : List PushSub
  shareReferences : List ShareRef
  playEvents : List PlayEvent
  growthOnboarding : List OnboardRec
  scheduledPush : List NotifId
  nextId : Nat
deriving DecidableEq

/-- The empty store. -/
def DB.empty : DB :=
  { users := [], profiles := [], posts := [], follows := [], likes := [],
    reposts := [], comments := [], notifications := [], userPresence := [],
    playbackStates := [], pushSubscriptions := [], shareReferences := [],
    playEvents := [], growthOnboarding := [], scheduledPush := [], nextId := 0 }

/-- JS `a || b` on strings: fall through when `a` is absent or empty. -/
def orNonempty (a : Option String) (b : String) : String :=
  match a with
  | some s => if s = "" then b else s
  | none => b

/-- `getDisplayName`: profile display name, falling back to the raw account
name, then email, then "Anonymous" (JS `||` chain over possibly-empty
strings). -/
def getDisplayName (db : DB) (userId : UserId) : String :=
  let user := db.users.find? (fun u => u.id == userId)
  let profile := db.profiles.find? (fun p => p.userId == userId)
  orNonempty (profile.map (·.displayName))
    (orNonempty (user.bind (·.name)) (orNonempty (user.bind (·.email)) "Anonymous"))

/-- `requireNonGuestUserId`: no auth user id is a hard failure; an anonymous
(guest) account is likewise rejected.  A missing user row leaves
`user?.isAnonymous` undefined, i.e. falsy. -/
def requireNonGuestUserId (db : DB) (auth : Option UserId) : Except String UserId :=
  match auth with
  | none => .error "Not authenticated"
  | some userId =>
    match db.users.find? (fun u => u.id == userId) with
    | some user =>
      if user.isAnonymous then .error "Create an account to interact publicly."
      else .ok userId
    | none => .ok userId

/-- Argument record of `upsertNotification`. -/
structure NotifArgs where
  recipientId : UserId
  actorId : Option UserId := none
  type : NotificationType
  message : String
  postId : Option PostId := none
  commentId : Option CommentId := none
  profileId : Option UserId := none
  groupKey : Option GroupKey := none

/-- The `by_recipient_group` index predicate. -/
def notifMatchesGroup (recipientId : UserId) (gk : GroupKey) (row : NotifId × Notification) : Bool :=
  row.2.recipientId == recipientId && row.2.groupKey == some gk

/-- The `ctx.db.patch` applied to an existing grouped notification: overwrite
actor, type, message and target references, reset `createdAt`, clear the read
flag.  Recipient and group key are untouched. -/
def patchNotifRow (args : NotifArgs) (now : Nat) (n : Notification) : Notification :=
  { n with actorId := args.actorId, type := args.type, message := args.message,
           postId := args.postId, commentId := args.commentId,
           profileId := args.profileId, createdAt := now, readAt := none }

/-- `ctx.scheduler.runAfter(0, internal.push.dispatchPushForNotification, ...)`. -/
def schedulePush (db : DB) (nid : NotifId) : DB :=
  { db with scheduledPush := db.scheduledPush ++ [nid] }

/-- The plain-insert arm of `upsertNotification`. -/
def insertNotification (db : DB) (now : Nat) (args : NotifArgs) : DB × NotifId :=
  let nid := db.nextId
  let n : Notification :=
    { recipientId := args.recipientId, actorId := args.actorId, type := args.type,
      postId := args.postId, commentId := args.commentId, profileId := args.profileId,
      message := args.message, groupKey := args.groupKey, readAt := none, createdAt := now }
  (schedulePush { db with notifications := db.notifications ++ [(nid, n)],
                          nextId := db.nextId + 1 } nid, nid)

/-- `upsertNotification`: with a group key, patch the existing
`(recipient, groupKey)` row in place if one exists (refreshing its content and
resurfacing it as unread), otherwise insert; either way schedule asynchronous
push delivery for the resulting id and return it. -/
def upsertNotification (db : DB) (now : Nat) (args : NotifArgs) : DB × NotifId :=
  match args.groupKey with
  | some gk =>
    match db.notifications.find? (notifMatchesGroup args.recipientId gk) with
    | some existing =>
      let db' := { db with notifications :=
        db.notifications.map (fun row =>
          if row.1 == existing.1 then (row.1, patchNotifRow args now row.2) else row) }
      (schedulePush db' existing.1, existing.1)
    | none => insertNotification db now args
  | none => insertNotification db now args

/-- `deleteNotificationByGroup`: delete every notification for the
`(recipient, groupKey)` pair. -/
def deleteNotificationByGroup (db : DB) (recipientId : UserId) (gk : GroupKey) : DB :=
  { db with notifications :=
      db.notifications.filter (fun row => !(notifMatchesGroup recipientId gk row)) }

/-- The stored notifications for a `(recipient, groupKey)` pair. -/
def notifsFor (db : DB) (recipientId : UserId) (gk : GroupKey) : List (NotifId × Notification) :=
  db.notifications.filter (notifMatchesGroup recipientId gk)

/-- Patch one post row by id. -/
def patchPost (db : DB) (postId : PostId) (f : Post → Post) : DB :=
  { db with posts := db.posts.map (fun p => if p.id == postId then f p else p) }

/-! ### Mention extraction (posts.ts) -/

/-- JS `String.prototype.toLowerCase`, implemented over the character list
(the built-in `String.toLower` is not kernel-reducible). -/
def lowerChars (s : String) : String := String.mk (s.data.map Char.toLower)

/-- JS `String.prototype.trim`: strip leading and trailing whitespace. -/
def trimChars (s : String) : String :=
  String.mk (((s.data.dropWhile Char.isWhitespace).reverse.dropWhile
    Char.isWhitespace).reverse)

/-- A character of the regex class `[a-zA-Z0-9_.-]`. -/
def isHandleChar (c : Char) : Bool :=
  (decide ('a' ≤ c) && decide (c ≤ 'z')) || (decide ('A' ≤ c) && decide (c ≤ 'Z')) ||
  (decide ('0' ≤ c) && decide (c ≤ '9')) || c == '_' || c == '.' || c == '-'

/-- Left-to-right scan of the global regex `@([a-zA-Z0-9_.-]` followed by a
greedy repetition bound of 2 to 32 `)` over the character stream, returning
the captured handles (the source maps each full match through `.slice(1)`,
i.e. drops the `@`).  At an `@` the engine greedily takes up to 32 class
characters; with fewer than 2 the attempt fails and scanning resumes at the
next character, otherwise scanning resumes after the matched characters.
`fuel` (initialised to the string length) only serves structural recursion;
each step consumes at least one character. -/
def scanMentionsAux : Nat → List Char → List String
  | 0, _ => []
  | _, [] => []
  | fuel + 1, c :: rest =>
    if c == '@' then
      let cap := (rest.takeWhile isHandleChar).take 32
      if cap.length ≥ 2 then
        String.mk cap :: scanMentionsAux fuel (rest.drop cap.length)
      else
        scanMentionsAux fuel rest
    else
      scanMentionsAux fuel rest

/-- JS `Array.from(new Set(xs))`: de-duplication keeping first occurrences. -/
def dedupKeepFirst [DecidableEq α] (seen : List α) : List α → List α
  | [] => []
  | h :: t => if h ∈ seen then dedupKeepFirst seen t else h :: dedupKeepFirst (h :: seen) t

/-- `extractMentions`: matched handles, lower-cased and de-duplicated. -/
def extractMentions (content : String) : List String :=
  let handles := (scanMentionsAux content.length content.data).map (fun value => lowerChars value)
  dedupKeepFirst [] handles

/-- `getMentionedUserIds`: resolve each handle against the first profile whose
trimmed, lower-cased display name equals it (the source builds a first-wins
`Map` over all profiles); unknown handles are silently dropped; the resolved
ids are de-duplicated. -/
def getMentionedUserIds (db : DB) (content : String) : List UserId :=
  let handles := extractMentions content
  let mentionedIds := handles.filterMap (fun handle =>
    (db.profiles.find? (fun profile => lowerChars (trimChars profile.displayName) == handle)).map
      (·.userId))
  dedupKeepFirst [] mentionedIds

/-! ### Engagement mutators (social.ts / posts.ts) -/

/-- `followUser` (social.ts). -/
def followUser (db : DB) (now : Nat) (auth : Option UserId) (targetId : UserId) :
    Except String DB :=
  match requireNonGuestUserId db auth with
  | .error e => .error e
  | .ok currentUserId =>
    if currentUserId = targetId then .error "Cannot follow yourself"
    else if (db.follows.find? (fun f =>
        f.followerId == currentUserId && f.followingId == targetId)).isSome then
      .error "Already following this user"
    else
      let db := { db with follows :=
        db.follows ++ [{ followerId := currentUserId, followingId := targetId }] }
      let actorName := getDisplayName db currentUserId
      .ok (upsertNotification db now
        { recipientId := targetId, actorId := some currentUserId, type := .follow,
          profileId := some currentUserId,
          message := actorName ++ " started following you",
          groupKey := some (GroupKey.follow currentUserId targetId) }).1

/-- `unfollowUser` (social.ts). -/
def unfollowUser (db : DB) (auth : Option UserId) (targetId : UserId) :
    Except String DB :=
  match requireNonGuestUserId db auth with
  | .error e => .error e
  | .ok currentUserId =>
    match db.follows.find? (fun f =>
        f.followerId == currentUserId && f.followingId == targetId) with
    | none => .error "Not following this user"
    | some existingFollow =>
      let db := { db with follows := db.follows.erase existingFollow }
      .ok (deleteNotificationByGroup db targetId (GroupKey.follow currentUserId targetId))

/-- `getLikeMessage` (posts.ts). -/
def getLikeMessage (postType : PostType) (actorName : String) : String :=
  match postType with
  | .thought => actorName ++ " liked your post"
  | _ => actorName ++ " liked your track"

def TRENDING_THRESHOLDS : List Nat := [5, 10, 25]

/-- `notifyTrendingInNetwork` (posts.ts): if the like-count increment crossed
the first (lowest) unmet threshold, fan a `network_trending` notification out
to every follower of the author (the author excluded), one grouped row per
`(post, threshold, follower)`. -/
def notifyTrendingInNetwork (db : DB) (now : Nat) (postId : PostId) (authorId : UserId)
    (likesBefore likesAfter : Nat) : DB :=
  match TRENDING_THRESHOLDS.find? (fun t => likesBefore < t && t ≤ likesAfter) with
  | none => db
  | some reachedThreshold =>
    let followers := (db.follows.filter (fun f => f.followingId == authorId)).map (·.followerId)
    if followers.length == 0 then db
    else
      let authorName := getDisplayName db authorId
      (followers.filter (fun followerId => followerId != authorId)).foldl
        (fun acc followerId =>
          (upsertNotification acc now
            { recipientId := followerId, actorId := some authorId,
              profileId := some authorId, type := .network_trending,
              postId := some postId,
              message := authorName ++ "\x27s post is trending in your network (" ++
                toString likesAfter ++ " likes)",
              groupKey := some (GroupKey.networkTrending postId reachedThreshold followerId) }).1)
        db

/-- `toggleLike` (posts.ts): with an existing like, unlike (and retract the
grouped notification); otherwise like, notify the author (unless acting on
one's own post) and run the trending rule on the counter transition. -/
def toggleLike (db : DB) (now : Nat) (auth : Option UserId) (postId : PostId) :
    Except String (Bool × DB) :=
  match requireNonGuestUserId db auth with
  | .error e => .error e
  | .ok userId =>
    let existingLike := db.likes.find? (fun l => l.userId == userId && l.postId == postId)
    match db.posts.find? (fun p => p.id == postId) with
    | none => .error "Post not found"
    | some post =>
      let groupKey := GroupKey.like postId userId
      match existingLike with
      | some lk =>
        let db := { db with likes := db.likes.erase lk }
        let db := patchPost db postId
          (fun p => { p with likesCount := max 0 (post.likesCount - 1) })
        let db := if post.authorId != userId then
            deleteNotificationByGroup db post.authorId groupKey
          else db
        .ok (false, db)
      | none =>
        let db := { db with likes := db.likes ++ [{ userId := userId, postId := postId }] }
        let nextLikesCount := post.likesCount + 1
        let db := patchPost db postId (fun p => { p with likesCount := nextLikesCount })
        let db := if post.authorId != userId then
            (upsertNotification db now
              { recipientId := post.authorId, actorId := some userId, type := .like,
                postId := some postId,
                message := getLikeMessage post.type (getDisplayName db userId),
                groupKey := some groupKey }).1
          else db
        let db := notifyTrendingInNetwork db now postId post.authorId post.likesCount
          nextLikesCount
        .ok (true, db)

/-- `toggleRepost` (posts.ts). -/
def toggleRepost (db : DB) (now : Nat) (auth : Option UserId) (postId : PostId) :
    Except String (Bool × DB) :=
  match requireNonGuestUserId db auth with
  | .error e => .error e
  | .ok userId =>
    let existingRepost := db.reposts.find? (fun r => r.userId == userId && r.postId == postId)
    match db.posts.find? (fun p => p.id == postId) with
    | none => .error "Post not found"
    | some post =>
      let currentReposts := post.repostsCount
      let groupKey := GroupKey.repost postId userId
      match existingRepost with
      | some rp =>
        let db := { db with reposts := db.reposts.erase rp }
        let db := patchPost db postId
          (fun p => { p with repostsCount := max 0 (currentReposts - 1) })
        let db := if post.authorId != userId then
            deleteNotificationByGroup db post.authorId groupKey
          else db
        .ok (false, db)
      | none =>
        let db := { db with reposts := db.reposts ++ [{ userId := userId, postId := postId }] }
        let db := patchPost db postId (fun p => { p with repostsCount := currentReposts + 1 })
        let db := if post.authorId != userId then
            (upsertNotification db now
              { recipientId := post.authorId, actorId := some userId, type := .repost,
                postId := some postId,
                message := getDisplayName db userId ++ " reposted your post",
                groupKey := some groupKey }).1
          else db
        .ok (true, db)

/-- `addComment` (posts.ts): store the comment with its resolved mentions,
bump the counter, notify the post author (unless commenting on one's own
post), then fan out one grouped mention notification per mentioned user,
excluding the comment author and the post author. -/
def addComment (db : DB) (now : Nat) (auth : Option UserId) (postId : PostId)
    (content : String) : Except String (CommentId × DB) :=
  match requireNonGuestUserId db auth with
  | .error e => .error e
  | .ok userId =>
    let trimmed := trimChars content
    if trimmed = "" then .error "Comment cannot be empty"
    else
      match db.posts.find? (fun p => p.id == postId) with
      | none => .error "Post not found"
      | some post =>
        let mentionedUserIds := getMentionedUserIds db trimmed
        let commentId := db.nextId
        let newComment : CommentRec :=
          { id := commentId, authorId := userId, postId := postId, content := trimmed,
            mentionedUserIds := mentionedUserIds }
        let db := { db with comments := db.comments ++ [newComment], nextId := db.nextId + 1 }
        let db := patchPost db postId
          (fun p => { p with commentsCount := post.commentsCount + 1 })
        let actorName := getDisplayName db userId
        let db := if post.authorId != userId then
            (upsertNotification db now
              { recipientId := post.authorId, actorId := some userId, type := .comment,
                postId := some postId, commentId := some commentId,
                message := actorName ++ " commented on your post",
                groupKey := some (GroupKey.comment commentId) }).1
          else db
        let db := (mentionedUserIds.filter
            (fun mentionedId => mentionedId != userId && mentionedId != post.authorId)).foldl
          (fun acc mentionedId =>
            (upsertNotification acc now
              { recipientId := mentionedId, actorId := some userId, type := .mention,
                postId := some postId, commentId := some commentId,
                message := actorName ++ " mentioned you in a comment",
                groupKey := some (GroupKey.mention commentId mentionedId) }).1)
          db
        .ok (commentId, db)

/-! ### Presence and playback (player.ts) -/

def PRESENCE_INACTIVITY_MS : Nat := 2 * 60 * 1000

/-- JS `s?.trim() || undefined`. -/
def trimToOption (s : Option String) : Option String :=
  match s with
  | some raw => let t := trimChars raw; if t = "" then none else some t
  | none => none

/-- JS `a || b` on an optional number: `0` is falsy. -/
def orNonzero (a : Option Nat) (b : Nat) : Nat :=
  match a with
  | some v => if v = 0 then b else v
  | none => b

/-- What `getUserPresence` returns: the stored record spread with `isActive`
recomputed, plus the `isStale` flag. -/
structure PresenceView where
  presence : PresenceRec
  isActive : Bool
  isStale : Bool
deriving DecidableEq

/-- `getUserPresence` (player.ts): a query (it cannot write, so the state is
returned unchanged).  A stored-active record past the inactivity window is
surfaced as inactive without rewriting storage. -/
def getUserPresence (db : DB) (now : Nat) (userId : UserId) : Option PresenceView × DB :=
  match db.userPresence.find? (fun p => p.userId == userId) with
  | none => (none, db)
  | some presence =>
    let stillActive := presence.isActive &&
      decide (now - presence.lastSeenAt ≤ PRESENCE_INACTIVITY_MS)
    (some { presence := { presence with isActive := stillActive },
            isActive := stillActive,
            isStale := presence.isActive && !stillActive }, db)

structure PresencePayload where
  currentTrackId : Option String
  trackTitle : Option String
  trackUrl : Option String
  startedAt : Option Nat
  lastSeenAt : Nat
  isActive : Bool
deriving DecidableEq

/-- `toPresencePayload` (player.ts): active = non-empty track id AND playing;
`startedAt` resets only when there was no active session (`!existingStartedAt`
is JS-falsy) or the track id changed. -/
def toPresencePayload (trackUrl trackTitle : Option String) (now : Nat) (isPlaying : Bool)
    (existingStartedAt : Option Nat) (existingTrackId : Option String) : PresencePayload :=
  let nextTrackId := trimToOption trackUrl
  let nextIsActive := nextTrackId.isSome && isPlaying
  let startTruthy := match existingStartedAt with
    | some v => v ≠ 0
    | none => false
  let shouldResetStart := nextIsActive && (!startTruthy || existingTrackId != nextTrackId)
  { currentTrackId := if nextIsActive then nextTrackId else none,
    trackTitle := if nextIsActive then trimToOption trackTitle else none,
    trackUrl := if nextIsActive then nextTrackId else none,
    startedAt := if nextIsActive then
        (if shouldResetStart then some now else some (orNonzero existingStartedAt now))
      else none,
    lastSeenAt := now,
    isActive := nextIsActive }

/-- `upsertPlaybackState` (player.ts): persist the raw playback state, update
the presence record from it, and on a transition into actively playing a
track (new track url, or resuming from paused/no state) fan a grouped
`friend_listening` notification out to every follower of the broadcasting
user, the broadcaster excluded. -/
def upsertPlaybackState (db : DB) (now : Nat) (auth : Option UserId)
    (trackUrl trackTitle trackThumbnail : Option String)
    (currentTime duration : Nat) (isPlaying : Bool) : Except String DB :=
  match auth with
  | none => .error "Not authenticated"
  | some userId =>
  let existing := db.playbackStates.find? (fun s => s.userId == userId)
  let payload : PlaybackState :=
    { userId := userId, trackUrl := trackUrl, trackTitle := trackTitle,
      trackThumbnail := trackThumbnail, currentTime := currentTime,
      duration := duration, isPlaying := isPlaying, updatedAt := now }
  let nextTrackUrl := trimToOption trackUrl
  let shouldNotifyFollowers := nextTrackUrl.isSome && isPlaying &&
    (match existing with
     | none => true
     | some e => e.trackUrl != nextTrackUrl || e.isPlaying == false)
  let db : DB := match existing with
    | some e =>
      let patched := db.playbackStates.map
        (fun s => if s.userId == e.userId then payload else s)
      { db with playbackStates := patched }
    | none => { db with playbackStates := db.playbackStates ++ [payload] }
  let existingPresence := db.userPresence.find? (fun p => p.userId == userId)
  let presencePayload := toPresencePayload nextTrackUrl trackTitle now isPlaying
    (existingPresence.bind (·.startedAt)) (existingPresence.bind (·.currentTrackId))
  let newPresence : PresenceRec :=
    { userId := userId, currentTrackId := presencePayload.currentTrackId,
      trackTitle := presencePayload.trackTitle, trackUrl := presencePayload.trackUrl,
      startedAt := presencePayload.startedAt, lastSeenAt := presencePayload.lastSeenAt,
      isActive := presencePayload.isActive }
  let db : DB := match existingPresence with
    | some p =>
      let patched := db.userPresence.map
        (fun q => if q.userId == p.userId then newPresence else q)
      { db with userPresence := patched }
    | none => { db with userPresence := db.userPresence ++ [newPresence] }
  let db :=
    if shouldNotifyFollowers then
      match nextTrackUrl with
      | some trackUrlValue =>
        let followers := (db.follows.filter (fun f => f.followingId == userId)).map
          (·.followerId)
        if followers.length > 0 then
          let actorName := getDisplayName db userId
          let trackLabel := match trimToOption trackTitle with
            | some t => t
            | none => "a new track"
          (followers.filter (fun followerId => followerId != userId)).foldl
            (fun acc followerId =>
              (upsertNotification acc now
                { recipientId := followerId, actorId := some userId,
                  profileId := some userId, type := .friend_listening,
                  message := actorName ++ " started listening to " ++ trackLabel,
                  groupKey := some (GroupKey.friendListening userId trackUrlValue) }).1)
            db
        else db
      | none => db
    else db
  .ok db

/-! ### Feed assembly (posts.ts)

`getFeedPosts`/`getPublicFeedPosts` map every selected post through
`buildPostWithViewer` (author display identity, viewer like/repost flags,
author presence); that enrichment is a per-element map preserving selection
and order, and is elided here — the queries return the selected posts. -/

/-- `ctx.db.query("posts").order("desc")`: posts by descending
`_creationTime`.  `DB.posts` is kept in insertion order, so the descending
index order is its reverse. -/
def postsDesc (db : DB) : List Post := db.posts.reverse

/-- JS `args.limit || 20`: an absent — or zero, zero being falsy — limit
becomes 20. -/
def effectiveLimit (limit : Option Nat) : Nat :=
  match limit with
  | some l => if l = 0 then 20 else l
  | none => 20

/-- `getFeedPosts` (posts.ts): personal scope for an authenticated viewer —
take a 2×limit candidate window of most-recent posts, filter it to authors
in the viewer's following set plus the viewer, truncate to the limit; an
anonymous viewer gets the unfiltered most-recent window. -/
def getFeedPosts (db : DB) (auth : Option UserId) (limit : Option Nat) : List Post :=
  let lim := effectiveLimit limit
  let posts := (postsDesc db).take (lim * 2)
  match auth with
  | some userId =>
    let follows := db.follows.filter (fun f => f.followerId == userId)
    let followingIds := follows.map (·.followingId) ++ [userId]
    (posts.filter (fun post => followingIds.contains post.authorId)).take lim
  | none => posts.take lim

/-- `getPublicFeedPosts` (posts.ts): the globally most recent posts, no
follow-graph filtering. -/
def getPublicFeedPosts (db : DB) (_auth : Option UserId) (limit : Option Nat) : List Post :=
  (postsDesc db).take (effectiveLimit limit)

/-! ### Play recording, shares, system updates (posts.ts / social.ts) -/

inductive RecordPlayResult
  | notRecordedAnonymous
  | notRecordedCooldown
  | recorded (playCount : Nat)
deriving DecidableEq

def PLAY_EVENT_COOLDOWN_MS : Nat := 30 * 1000

/-- `detectPlaySource` (posts.ts): `post.spotifyUrl && trackUrl ===
post.spotifyUrl` etc.; the JS truthiness guard excludes empty stored urls. -/
def detectPlaySource (post : Post) (trackUrl : Option String) : Option String :=
  match trackUrl with
  | none => none
  | some url =>
    if (match post.spotifyUrl with | some s => s ≠ "" && s == url | none => false) then
      some "spotify"
    else if (match post.appleMusicUrl with | some s => s ≠ "" && s == url | none => false) then
      some "apple_music"
    else if (match post.youtubeUrl with | some s => s ≠ "" && s == url | none => false) then
      some "youtube"
    else some "direct_audio"

/-- `recordPlay` (posts.ts): an anonymous caller gets a non-error
`{recorded: false, reason: "anonymous"}` result with no writes; within the
30-second per-(post, listener) cooldown the play is likewise not recorded;
otherwise a play event is stored and the post's play counter bumped. -/
def recordPlay (db : DB) (now : Nat) (auth : Option UserId) (postId : PostId)
    (trackUrl : Option String) : Except String (RecordPlayResult × DB) :=
  match auth with
  | none => .ok (.notRecordedAnonymous, db)
  | some listenerId =>
    match db.posts.find? (fun p => p.id == postId) with
    | none => .error "Post not found"
    | some post =>
      -- `order("desc").first()` on the `by_post_listener_time` index: the
      -- listener's latest play of this post.
      let lastPlayedAt := (db.playEvents.filter (fun e =>
          e.postId == postId && e.listenerId == listenerId)).foldl
        (fun acc e => match acc with
          | none => some e.playedAt
          | some t => some (max t e.playedAt)) none
      let onCooldown := match lastPlayedAt with
        | some t => decide (now - t < PLAY_EVENT_COOLDOWN_MS)
        | none => false
      if onCooldown then
        .ok (.notRecordedCooldown, db)
      else
        let newEvent : PlayEvent :=
          { postId := postId, authorId := post.authorId, listenerId := listenerId,
            playedAt := now, source := detectPlaySource post trackUrl, trackUrl := trackUrl }
        let db := { db with playEvents := db.playEvents ++ [newEvent] }
        let currentPlayCount := post.playCount
        let db := patchPost db postId (fun p => { p with playCount := currentPlayCount + 1 })
        .ok (.recorded (currentPlayCount + 1), db)

/-- `createShareReference` (posts.ts): works for anonymous callers too — the
creator falls back to the post's author.  Re-sharing returns the existing
code; a fresh share by someone other than the author notifies the author
(grouped per `(post, actor)`).  `generateShareCode()` draws randomness, so
the fresh code is an explicit input here. -/
def createShareReference (db : DB) (now : Nat) (auth : Option UserId) (postId : PostId)
    (freshCode : String) : Except String (String × DB) :=
  match db.posts.find? (fun p => p.id == postId) with
  | none => .error "Post not found"
  | some post =>
    let creatorId := auth.getD post.authorId
    match db.shareReferences.find? (fun ref =>
        ref.postId == postId && ref.creatorId == creatorId) with
    | some existing => .ok (existing.code, db)
    | none =>
      let newRef : ShareRef :=
        { code := freshCode, postId := postId, creatorId := creatorId,
          createdAt := now, clicks := 0 }
      let db := { db with shareReferences := db.shareReferences ++ [newRef] }
      let db := if creatorId != post.authorId then
          (upsertNotification db now
            { recipientId := post.authorId, actorId := some creatorId, type := .share,
              postId := some postId,
              message := getDisplayName db creatorId ++ " shared your track",
              groupKey := some (GroupKey.share postId creatorId) }).1
        else db
      .ok (freshCode, db)

/-- `createSystemUpdateNotification` (social.ts): actor-less grouped
system-update notification; the recipient defaults to the caller. -/
def createSystemUpdateNotification (db : DB) (now : Nat) (auth : Option UserId)
    (message : String) (recipientId : Option UserId) : Except String DB :=
  match auth with
  | none => .error "Not authenticated"
  | some userId =>
    let recipient := recipientId.getD userId
    .ok (upsertNotification db now
      { recipientId := recipient, type := .system_update, message := message,
        groupKey := some (GroupKey.systemUpdate recipient message) }).1

/-- `getNotifications` (social.ts): anonymous callers get an empty anonymous
read; otherwise the recipient's most recent notifications (descending
`createdAt`), truncated to the limit, restricted to the recency window.
Per-row enrichment (actor identity, `isRead`, `targetExists`) is a
per-element map and is elided. -/
def getNotifications (db : DB) (now : Nat) (auth : Option UserId)
    (limit : Option Nat) (withinDays : Option Nat) : List (NotifId × Notification) :=
  match auth with
  | none => []
  | some userId =>
    let lim := effectiveLimit limit
    let days := withinDays.getD 30
    let cutoff := now - days * 24 * 60 * 60 * 1000
    let mine := db.notifications.filter (fun row => row.2.recipientId == userId)
    let taken := ((mine.mergeSort (fun a b => b.2.createdAt ≤ a.2.createdAt)).take lim)
    taken.filter (fun row => row.2.createdAt ≥ cutoff)

/-! ### Seed accounts (posts.ts / growth.ts) -/

/-- `getSeedEmails`: the comma-separated `SEED_ACCOUNT_EMAILS` environment
value, trimmed, lower-cased, blanks dropped.  The raw environment string is
an explicit input. -/
def getSeedEmails (raw : String) : List String :=
  let trimmed := trimChars raw
  if trimmed = "" then []
  else ((trimmed.splitOn ",").map (fun value => lowerChars (trimChars value))).filter (fun s => s ≠ "")

/-- `getSeedUserIds`: non-anonymous users other than `excludeUserId` whose
(non-empty, lower-cased) email is a seed email. -/
def getSeedUserIds (db : DB) (seedEmailsRaw : String) (excludeUserId : UserId) : List UserId :=
  let seedEmails := getSeedEmails seedEmailsRaw
  if seedEmails.isEmpty then []
  else
    ((((db.users.filter (fun user => !user.isAnonymous)).filter
        (fun user => user.id != excludeUserId)).filter
      (fun user => match user.email with
        | some e => lowerChars e ≠ "" && seedEmails.contains (lowerChars e)
        | none => false)).map (·.id))

/-- The body of `createPost`'s seed-like loop, hoisted as a named function:
skip a seed that already likes the post, otherwise record the seed's like and
notify the author (grouped per `(post, seed)`), bumping the seeded-like
counter. -/
def createPostSeedStep (now : Nat) (userId : UserId) (postId : PostId)
    (ptype : PostType) (acc : DB × Nat) (seedId : UserId) : DB × Nat :=
  match acc.1.likes.find? (fun l => l.userId == seedId && l.postId == postId) with
  | some _ => acc
  | none =>
    let db := { acc.1 with likes :=
      acc.1.likes ++ [{ userId := seedId, postId := postId }] }
    let actorName := getDisplayName db seedId
    let db := (upsertNotification db now
      { recipientId := userId, actorId := some seedId, type := .like,
        postId := some postId,
        message := getLikeMessage ptype actorName,
        groupKey := some (GroupKey.like postId seedId) }).1
    (db, acc.2 + 1)

structure CreatePostArgs where
  type : PostType
  title : String
  content : String
  spotifyUrl : Option String := none
  appleMusicUrl : Option String := none
  youtubeUrl : Option String := none
  tags : Option (List String) := none

/-- `createPost` (posts.ts): insert the post; on the author's first post,
give it one like per seed account (each seed like notifying the author,
grouped per `(post, seed)`) and set the like counter accordingly. -/
def createPost (db : DB) (now : Nat) (auth : Option UserId) (seedEmailsRaw : String)
    (args : CreatePostArgs) : Except String (PostId × DB) :=
  match requireNonGuestUserId db auth with
  | .error e => .error e
  | .ok userId =>
    -- `take(1).length === 0` on the by_author index
    let isFirstPost := (db.posts.filter (fun p => p.authorId == userId)).isEmpty
    let postId := db.nextId
    let newPost : Post :=
      { id := postId, authorId := userId, type := args.type, title := args.title,
        content := args.content, spotifyUrl := args.spotifyUrl,
        appleMusicUrl := args.appleMusicUrl, youtubeUrl := args.youtubeUrl,
        tags := args.tags.getD [], likesCount := 0, commentsCount := 0,
        repostsCount := 0, playCount := 0, creationTime := now }
    let db := { db with posts := db.posts ++ [newPost], nextId := db.nextId + 1 }
    if isFirstPost then
      let seedUserIds := getSeedUserIds db seedEmailsRaw userId
      let seeded := seedUserIds.foldl (createPostSeedStep now userId postId args.type) (db, 0)
      let db := if seeded.2 > 0 then
          patchPost seeded.1 postId (fun p => { p with likesCount := seeded.2 })
        else seeded.1
      .ok (postId, db)
    else
      .ok (postId, db)

/-- The body of `ensureSeedWarmWelcome`'s seed-follow loop, hoisted as a named
function: skip a seed that already follows the user, otherwise record the
follow and insert (and schedule) a grouped follow notification, bumping the
follow counter.  The source inserts the notification document and schedules
its push directly, which is exactly the insert arm of the engine. -/
def warmWelcomeSeedStep (now : Nat) (userId : UserId) (acc : DB × Nat)
    (seedId : UserId) : DB × Nat :=
  match acc.1.follows.find? (fun f => f.followerId == seedId && f.followingId == userId) with
  | some _ => acc
  | none =>
    let db := { acc.1 with follows :=
      acc.1.follows ++ [{ followerId := seedId, followingId := userId }] }
    let actorName := getDisplayName db seedId
    ((insertNotification db now
      { recipientId := userId, actorId := some seedId, type := .follow,
        profileId := some seedId,
        message := actorName ++ " started following you",
        groupKey := some (GroupKey.follow seedId userId) }).1, acc.2 + 1)

inductive WarmWelcomeResult
  | skippedAnonymous
  | skippedAlreadyDone
  | skippedNoSeeds
  | followed (followedCount : Nat)
deriving DecidableEq

/-- `ensureSeedWarmWelcome` (growth.ts): once per user, make every seed
account (the user excluded by `getSeedUserIds`) follow the user, inserting a
grouped follow notification per new seed follower. -/
def ensureSeedWarmWelcome (db : DB) (now : Nat) (auth : Option UserId)
    (seedEmailsRaw : String) : Except String (WarmWelcomeResult × DB) :=
  match auth with
  | none => .error "Not authenticated"
  | some userId =>
  let isAnon := match db.users.find? (fun u => u.id == userId) with
    | some user => user.isAnonymous
    | none => false
  if isAnon then .ok (.skippedAnonymous, db)
  else
  let existing := db.growthOnboarding.find? (fun o => o.userId == userId)
  if (match existing with | some o => o.seedFollowedAt.isSome | none => false) then
    .ok (.skippedAlreadyDone, db)
  else
  let seedUserIds := getSeedUserIds db seedEmailsRaw userId
  if seedUserIds.isEmpty then
    let db : DB := match existing with
      | some o =>
        let touched := db.growthOnboarding.map
          (fun q => if q.userId == o.userId then { q with updatedAt := now } else q)
        { db with growthOnboarding := touched }
      | none =>
        let fresh : OnboardRec :=
          { userId := userId, seedFollowedAt := none, createdAt := now, updatedAt := now }
        { db with growthOnboarding := db.growthOnboarding ++ [fresh] }
    .ok (.skippedNoSeeds, db)
  else
  let seeded := seedUserIds.foldl (warmWelcomeSeedStep now userId) (db, 0)
  let db : DB := match existing with
    | some o =>
      let touched := seeded.1.growthOnboarding.map
        (fun q => if q.userId == o.userId then
          { q with seedFollowedAt := some now, updatedAt := now } else q)
      { seeded.1 with growthOnboarding := touched }
    | none =>
      let fresh : OnboardRec :=
        { userId := userId, seedFollowedAt := some now, createdAt := now, updatedAt := now }
      { seeded.1 with growthOnboarding := seeded.1.growthOnboarding ++ [fresh] }
  .ok (.followed seeded.2, db)

/-! ### Push delivery (push.ts / notifications.ts) -/

/-- The environment the push worker consults. -/
structure PushEnv where
  webPushPublicKey : Option String
  webPushPrivateKey : Option String
  siteUrl : Option String
  publicSiteUrl : Option String

/-- `isWebPushConfigured`: JS `!!env.KEY` — both keys present and non-empty. -/
def isWebPushConfigured (env : PushEnv) : Bool :=
  (match env.webPushPublicKey with | some s => s ≠ "" | none => false) &&
  (match env.webPushPrivateKey with | some s => s ≠ "" | none => false)

/-- `toAbsoluteUrl` (push.ts). -/
def toAbsoluteUrl (env : PushEnv) (path : String) : String :=
  let siteUrl := orNonempty env.siteUrl (orNonempty env.publicSiteUrl "http://localhost:5173")
  let normalized := if siteUrl.endsWith "/" then siteUrl.dropRight 1 else siteUrl
  normalized ++ path

/-- The literal string form of a group key, as used for the push dedupe tag
(`encodeURIComponent` is the identity on the decimal ids involved). -/
def renderGroupKey : GroupKey → String
  | .follow a r => "follow:" ++ toString a ++ ":" ++ toString r
  | .like p a => "like:" ++ toString p ++ ":" ++ toString a
  | .repost p a => "repost:" ++ toString p ++ ":" ++ toString a
  | .comment c => "comment:" ++ toString c
  | .mention c u => "mention:" ++ toString c ++ ":" ++ toString u
  | .share p a => "share:" ++ toString p ++ ":" ++ toString a
  | .friendListening a track => "friend_listening:" ++ toString a ++ ":" ++ track
  | .networkTrending p t f =>
    "network_trending:" ++ toString p ++ ":" ++ toString t ++ ":" ++ toString f
  | .systemUpdate r m => "system_update:" ++ toString r ++ ":" ++ m

/-- `buildNotificationUrl` (push.ts): post deep link with optional comment
anchor, else profile search deep link, else the notifications tab. -/
def buildNotificationUrl (n : Notification) : String :=
  match n.postId with
  | some postId =>
    let commentQuery := match n.commentId with
      | some commentId => "&commentId=" ++ toString commentId
      | none => ""
    "/?tab=feed&postId=" ++ toString postId ++ commentQuery
  | none =>
    match n.profileId, n.actorId with
    | some profileId, _ => "/?tab=search&userId=" ++ toString profileId
    | none, some actorId => "/?tab=search&userId=" ++ toString actorId
    | none, none => "/?tab=notifications"

/-- `buildTitle` (push.ts): the fixed type-to-title mapping. -/
def buildTitle (t : NotificationType) : String :=
  match t with
  | .like => "Someone liked your track"
  | .follow => "New follower"
  | .network_trending => "Trending in your network"
  | .friend_listening => "Friend started listening"
  | .comment => "New comment"
  | .mention => "You were mentioned"
  | .repost => "Your post was reposted"
  | .share => "Someone shared your track"
  | .system_update => "New update"

/-- The rendered web-push payload. -/
structure PushPayload where
  title : String
  body : String
  tag : String
  url : String
  createdAt : Nat
deriving DecidableEq

/-- Outcome of one `webpush.sendNotification` call: success, or a thrown
error whose `statusCode` may be absent. -/
inductive SendResult
  | delivered
  | failed (statusCode : Option Nat)
deriving DecidableEq

/-- `getPushDispatchData` (notifications.ts): the notification (if it still
exists) and the recipient's registered subscriptions (if any).  The source
projects each subscription to `{endpoint, p256dh, auth}`; the full rows are
kept here. -/
def getPushDispatchData (db : DB) (notificationId : NotifId) :
    Option (Notification × List PushSub) :=
  match db.notifications.find? (fun row => row.1 == notificationId) with
  | none => none
  | some found =>
    let subscriptions := db.pushSubscriptions.filter
      (fun s => s.userId == found.2.recipientId)
    if subscriptions.isEmpty then none
    else some (found.2, subscriptions)

/-- `removePushSubscriptionByEndpoint` (notifications.ts): `.unique()` lookup
by endpoint, delete if present. -/
def removePushSubscriptionByEndpoint (db : DB) (endpoint : String) : DB :=
  match db.pushSubscriptions.find? (fun s => s.endpoint == endpoint) with
  | some existing => { db with pushSubscriptions := db.pushSubscriptions.erase existing }
  | none => db

/-- The payload rendered by `dispatchPushForNotification` (push.ts): fixed
type-to-title mapping, the notification's message as body, the group key (or
a per-notification fallback) as the dedupe tag, and a deep-link url. -/
def renderPushPayload (env : PushEnv) (notificationId : NotifId) (n : Notification) :
    PushPayload :=
  { title := buildTitle n.type,
    body := n.message,
    tag := match n.groupKey with
      | some gk => renderGroupKey gk
      | none => "notification:" ++ toString notificationId,
    url := toAbsoluteUrl env (buildNotificationUrl n),
    createdAt := n.createdAt }

/-- The "gone/expired" class of delivery failure: HTTP status 404 or 410. -/
def isGoneStatus : SendResult → Bool
  | .delivered => false
  | .failed status => status == some 404 || status == some 410

/-- `dispatchPushForNotification` (push.ts): no-op without credentials or
dispatch data; otherwise render one payload and send it to every endpoint of
the recipient, each attempt independent (`Promise.all`, with a per-attempt
`try`/`catch`, so no attempt's failure propagates or blocks the others);
an attempt failing with status 404 or 410 deletes exactly that endpoint's
registration, any other failure is swallowed.  `send` is the delivery
transport; the returned list is the endpoints attempted, in order. -/
def dispatchPushForNotification (env : PushEnv) (send : String → PushPayload → SendResult)
    (db : DB) (notificationId : NotifId) : DB × List String :=
  if !(isWebPushConfigured env) then (db, [])
  else
    match getPushDispatchData db notificationId with
    | none => (db, [])
    | some (notification, subscriptions) =>
      let payload := renderPushPayload env notificationId notification
      subscriptions.foldl (fun (acc : DB × List String) subscription =>
        let db := match send subscription.endpoint payload with
          | .delivered => acc.1
          | .failed status =>
            if status == some 404 || status == some 410 then
              removePushSubscriptionByEndpoint acc.1 subscription.endpoint
            else acc.1
        (db, acc.2 ++ [subscription.endpoint])) (db, [])

/-! ### Store invariants -/

/-- Ids of stored notifications are pairwise distinct and below the fresh-id
counter — document ids are unique in the store. -/
def NotifIdsWF (db : DB) : Prop :=
  (db.notifications.map (·.1)).Nodup ∧ ∀ row ∈ db.notifications, row.1 < db.nextId

/-- The engagement notification types: everything except system updates. -/
def engagementType : NotificationType → Bool
  | .system_update => false
  | _ => true

/-- No stored engagement notification has its recipient as its actor. -/
def SelfNotifFree (db : DB) : Prop :=
  ∀ row ∈ db.notifications, engagementType row.2.type = true →
    row.2.actorId ≠ some row.2.recipientId

/-! ### Concrete test fixtures -/

/-- Non-anonymous account rows used by the concrete instances. -/
def fixUsers : List UserRec :=
  [ { id := 1, name := some "Alice A", email := some "alice@example.com", isAnonymous := false },
    { id := 2, name := some "Bob B", email := some "bob@example.com", isAnonymous := false },
    { id := 3, name := some "Cara C", email := some "cara@example.com", isAnonymous := false },
    { id := 4, name := some "Dan D", email := some "dan@example.com", isAnonymous := false } ]

def presRec : PresenceRec :=
  { userId := 5, currentTrackId := some "track", trackTitle := some "Song",
    trackUrl := some "track", startedAt := some 1, lastSeenAt := 0, isActive := true }

def presDb : DB := { DB.empty with userPresence := [presRec] }

def feedPost (pid : PostId) (author : UserId) (t : Nat) : Post :=
  { id := pid, authorId := author, type := .song, title := "t", content := "c",
    spotifyUrl := none, appleMusicUrl := none, youtubeUrl := none, tags := [],
    likesCount := 0, commentsCount := 0, repostsCount := 0, playCount := 0,
    creationTime := t }

def feedDb : DB := { DB.empty with
  users := fixUsers,
  posts := [feedPost 10 3 1, feedPost 11 1 2, feedPost 12 2 3, feedPost 13 3 4],
  follows := [{ followerId := 1, followingId := 2 }],
  nextId := 20 }

/-- Author 1 with followers 2 and 3. -/
def trendDb : DB := { DB.empty with
  users := fixUsers,
  follows := [{ followerId := 2, followingId := 1 }, { followerId := 3, followingId := 1 }] }

/-- Post 7 by user 2; user 1 is a prospective liker. -/
def likeDb : DB := { DB.empty with
  users := fixUsers,
  posts := [feedPost 7 2 1],
  nextId := 100 }

/-- Post 7 at 4 likes by user 2, whose follower is user 3. -/
def edgeDb : DB := { DB.empty with
  users := fixUsers,
  posts := [{ feedPost 7 2 1 with likesCount := 4 }],
  follows := [{ followerId := 3, followingId := 2 }],
  nextId := 100 }

/-- Profiles Alice -> 1, bob -> 2; commenter 3; post 7 by 4. -/
def mentionDb : DB := { DB.empty with
  users := fixUsers,
  profiles := [{ userId := 1, displayName := "Alice" }, { userId := 2, displayName := "bob" }],
  posts := [feedPost 7 4 1],
  nextId := 50 }

def pushNotifFix : Notification :=
  { recipientId := 1, actorId := some 2, type := .like, postId := some 7,
    commentId := none, profileId := none, message := "m",
    groupKey := some (GroupKey.like 7 2), readAt := none, createdAt := 5 }

def pushSubFix (sid : Nat) (uid : UserId) (ep : String) : PushSub :=
  { id := sid, userId := uid, endpoint := ep, p256dh := "k", auth := "a",
    userAgent := none, createdAt := 0, updatedAt := 0 }

def pushDb : DB := { DB.empty with
  notifications := [(1, pushNotifFix)],
  pushSubscriptions := [pushSubFix 1 1 "ep410", pushSubFix 2 1 "ep500",
    pushSubFix 3 1 "epok", pushSubFix 4 2 "other"],
  nextId := 10 }

def pushEnvFix : PushEnv :=
  { webPushPublicKey := some "pub", webPushPrivateKey := some "priv",
    siteUrl := none, publicSiteUrl := none }

/-- A transport in which endpoint "ep410" reports gone (410), endpoint
"ep500" fails transiently (500), and everything else succeeds. -/
def sendFix : String → PushPayload → SendResult := fun ep _ =>
  if ep == "ep410" then .failed (some 410)
  else if ep == "ep500" then .failed (some 500)
  else .delivered

/-- `likeDb` in which user 1 already likes post 7 and already follows
user 2. -/
def dupDb : DB := { likeDb with
  follows := [{ followerId := 1, followingId := 2 }],
  likes := [{ userId := 1, postId := 7 }] }

/-- The store produced by one concrete system-update notification on
`likeDb` (the error arm is unreachable for this call and maps to the empty
store). -/
def sysRes : DB :=
  match createSystemUpdateNotification likeDb 5 (some 1) "m" none with
  | .ok d => d
  | .error _ => DB.empty

section ListLemmas

theorem find?_eq_head?_filter (p : α → Bool) (l : List α) :
    l.find? p = (l.filter p).head? := by
  induction l with
  | nil => rfl
  | cons a t ih =>
    cases h : p a with
    | true =>
      rw [List.find?_cons_of_pos _ h, List.filter_cons_of_pos h]
      rfl
    | false =>
      rw [List.find?_cons_of_neg _ (by simp [h]), List.filter_cons_of_neg (by simp [h])]
      exact ih

end ListLemmas

/-- Patching by id preserves recipient and group key, hence membership in any
`notifsFor` slice. -/
theorem notifMatchesGroup_patch (r : UserId) (gk : GroupKey) (args : NotifArgs) (now : Nat)
    (nid : NotifId) (row : NotifId × Notification) :
    notifMatchesGroup r gk
      (if row.1 == nid then (row.1, patchNotifRow args now row.2) else row)
      = notifMatchesGroup r gk row := by
  by_cases h : (row.1 == nid) = true
  · rw [if_pos h]; rfl
  · rw [if_neg h]

theorem notifsFor_patchMap (db : DB) (r : UserId) (gk : GroupKey) (args : NotifArgs)
    (now : Nat) (nid : NotifId) :
    notifsFor { db with notifications :=
        db.notifications.map (fun row =>
          if row.1 == nid then (row.1, patchNotifRow args now row.2) else row) } r gk
      = (notifsFor db r gk).map (fun row =>
          if row.1 == nid then (row.1, patchNotifRow args now row.2) else row) := by
  unfold notifsFor
  rw [List.filter_map]
  congr 1
  apply List.filter_congr
  intro row _
  exact notifMatchesGroup_patch r gk args now nid row

theorem notifsFor_schedulePush (db : DB) (nid : NotifId) (r : UserId) (gk : GroupKey) :
    notifsFor (schedulePush db nid) r gk = notifsFor db r gk := rfl

/-- C1 helper: the effect of one targeted upsert on the `(r, gk)` slice. -/
theorem notifsFor_upsert_target (db : DB) (now : Nat) (args : NotifArgs)
    (r : UserId) (gk : GroupKey) (hr : args.recipientId = r) (hg : args.groupKey = some gk) :
    (notifsFor db r gk = [] →
      notifsFor (upsertNotification db now args).1 r gk
        = [((upsertNotification db now args).2,
            { recipientId := args.recipientId, actorId := args.actorId, type := args.type,
              postId := args.postId, commentId := args.commentId, profileId := args.profileId,
              message := args.message, groupKey := args.groupKey,
              readAt := none, createdAt := now })]) ∧
    (∀ row0, notifsFor db r gk = [row0] →
      (upsertNotification db now args).2 = row0.1 ∧
      notifsFor (upsertNotification db now args).1 r gk
        = [(row0.1, patchNotifRow args now row0.2)]) := by
  constructor
  · intro hempty
    have hfind : db.notifications.find? (notifMatchesGroup args.recipientId gk) = none := by
      rw [find?_eq_head?_filter]
      have : db.notifications.filter (notifMatchesGroup args.recipientId gk) = [] := by
        subst hr
        exact hempty
      rw [this]
      rfl
    unfold upsertNotification
    rw [hg]
    simp only [hfind]
    unfold insertNotification notifsFor schedulePush
    simp only [List.filter_append]
    have hm : notifMatchesGroup r gk
        (db.nextId,
          { recipientId := args.recipientId, actorId := args.actorId, type := args.type,
            postId := args.postId, commentId := args.commentId, profileId := args.profileId,
            message := args.message, groupKey := args.groupKey,
            readAt := none, createdAt := now }) = true := by
      simp [notifMatchesGroup, hr, hg]
    have hempty' : db.notifications.filter (notifMatchesGroup r gk) = [] := hempty
    simp [List.filter_cons, hm, hempty']
    exact hg
  · intro row0 hone
    have hfind : db.notifications.find? (notifMatchesGroup args.recipientId gk) = some row0 := by
      rw [find?_eq_head?_filter]
      have : db.notifications.filter (notifMatchesGroup args.recipientId gk) = [row0] := by
        subst hr
        exact hone
      rw [this]
      rfl
    unfold upsertNotification
    rw [hg]
    simp only [hfind]
    refine ⟨trivial, ?_⟩
    rw [notifsFor_schedulePush, notifsFor_patchMap]
    have hone' : notifsFor db r gk = [row0] := hone
    rw [hone']
    simp

/-- Length of a `(r, gk)` slice after a plain insert. -/
theorem notifsFor_insert_length (db : DB) (now : Nat) (args : NotifArgs) (r : UserId)
    (gk : GroupKey) :
    (notifsFor (insertNotification db now args).1 r gk).length =
      (notifsFor db r gk).length +
        (if args.recipientId = r ∧ args.groupKey = some gk then 1 else 0) := by
  unfold insertNotification notifsFor schedulePush
  simp only [List.filter_append, List.length_append]
  congr 1
  by_cases hc : args.recipientId = r ∧ args.groupKey = some gk
  · simp [List.filter_cons, notifMatchesGroup, hc, hc.1, hc.2]
  · have hb : notifMatchesGroup r gk (db.nextId,
        { recipientId := args.recipientId, actorId := args.actorId, type := args.type,
          postId := args.postId, commentId := args.commentId, profileId := args.profileId,
          message := args.message, groupKey := args.groupKey,
          readAt := none, createdAt := now }) = false := by
      rcases not_and_or.mp hc with h | h <;> simp [notifMatchesGroup, h]
    simp [List.filter_cons, hb, hc]

/-- The slice for `(r, gk)` is empty iff the grouped lookup finds nothing. -/
theorem notifsFor_empty_iff_find?_none (db : DB) (r : UserId) (gk : GroupKey) :
    notifsFor db r gk = [] ↔
      db.notifications.find? (notifMatchesGroup r gk) = none := by
  rw [find?_eq_head?_filter]
  unfold notifsFor
  constructor
  · intro h; rw [h]; rfl
  · intro h
    cases hf : db.notifications.filter (notifMatchesGroup r gk) with
    | nil => rfl
    | cons a t => rw [hf] at h; cases h

/-- Length of a `(r, gk)` slice after one `upsertNotification`: a targeted
upsert makes the slice non-empty (inserting into an empty slice, patching in
place otherwise); any other upsert leaves the slice's size unchanged. -/
theorem notifsFor_upsert_length (db : DB) (now : Nat) (args : NotifArgs) (r : UserId)
    (gk : GroupKey) :
    (notifsFor (upsertNotification db now args).1 r gk).length =
      if args.recipientId = r ∧ args.groupKey = some gk then
        max 1 (notifsFor db r gk).length
      else (notifsFor db r gk).length := by
  cases hg : args.groupKey with
  | none =>
    have hu : upsertNotification db now args = insertNotification db now args := by
      simp only [upsertNotification, hg]
    have hc : ¬(args.recipientId = r ∧ (none : Option GroupKey) = some gk) := by
      intro hcon; cases hcon.2
    rw [hu, notifsFor_insert_length, hg, if_neg hc, if_neg hc, Nat.add_zero]
  | some gk' =>
    cases hfind : db.notifications.find? (notifMatchesGroup args.recipientId gk') with
    | none =>
      have hu : upsertNotification db now args = insertNotification db now args := by
        simp only [upsertNotification, hg, hfind]
      rw [hu, notifsFor_insert_length, hg]
      by_cases hc : args.recipientId = r ∧ (some gk' : Option GroupKey) = some gk
      · have hk : gk' = gk := Option.some.inj hc.2
        have hempty : notifsFor db r gk = [] := by
          rw [notifsFor_empty_iff_find?_none, ← hc.1, ← hk]
          exact hfind
        rw [if_pos hc, if_pos hc, hempty]
        simp
      · rw [if_neg hc, if_neg hc, Nat.add_zero]
    | some found =>
      have hlen : (notifsFor (upsertNotification db now args).1 r gk).length
          = (notifsFor db r gk).length := by
        simp only [upsertNotification, hg, hfind]
        rw [notifsFor_schedulePush, notifsFor_patchMap, List.length_map]
      rw [hlen]
      by_cases hc : args.recipientId = r ∧ (some gk' : Option GroupKey) = some gk
      · have hk : gk' = gk := Option.some.inj hc.2
        have hne : notifsFor db r gk ≠ [] := by
          intro hempty
          rw [notifsFor_empty_iff_find?_none, ← hc.1, ← hk] at hempty
          rw [hempty] at hfind
          cases hfind
        have hpos : 1 ≤ (notifsFor db r gk).length := by
          cases h : notifsFor db r gk with
          | nil => exact absurd h hne
          | cons a t => simp
        rw [if_pos hc]
        exact (max_eq_right hpos).symm
      · rw [if_neg hc]

/-- Effect of a fold of per-recipient grouped upserts (trending, mention and
friend-listening fan-outs) on the size of an arbitrary `(r, gk)` slice. -/
theorem notifsFor_foldl_upsert_length (now : Nat) (argsOf : UserId → NotifArgs)
    (keyOf : UserId → GroupKey)
    (hr : ∀ fid, (argsOf fid).recipientId = fid)
    (hg : ∀ fid, (argsOf fid).groupKey = some (keyOf fid)) :
    ∀ (fids : List UserId) (db : DB) (r : UserId) (gk : GroupKey),
      (notifsFor (fids.foldl (fun acc fid => (upsertNotification acc now (argsOf fid)).1) db)
          r gk).length
        = if ∃ f ∈ fids, r = f ∧ gk = keyOf f then
            max 1 (notifsFor db r gk).length
          else (notifsFor db r gk).length := by
  intro fids
  induction fids with
  | nil => intro db r gk; simp
  | cons f rest ih =>
    intro db r gk
    rw [List.foldl_cons, ih, notifsFor_upsert_length]
    by_cases h1 : r = f ∧ gk = keyOf f
    · have hstep : (argsOf f).recipientId = r ∧ (argsOf f).groupKey = some gk := by
        refine ⟨?_, ?_⟩
        · rw [hr f, h1.1]
        · rw [hg f, h1.2]
      have hall : ∃ f' ∈ f :: rest, r = f' ∧ gk = keyOf f' :=
        ⟨f, List.mem_cons_self f rest, h1⟩
      rw [if_pos hstep, if_pos hall]
      by_cases h2 : ∃ f' ∈ rest, r = f' ∧ gk = keyOf f'
      · rw [if_pos h2]; omega
      · rw [if_neg h2]
    · have hstep : ¬((argsOf f).recipientId = r ∧ (argsOf f).groupKey = some gk) := by
        intro hcon
        refine h1 ⟨?_, ?_⟩
        · rw [← hcon.1, hr f]
        · have := hcon.2
          rw [hg f] at this
          exact (Option.some.inj this).symm
      rw [if_neg hstep]
      by_cases h2 : ∃ f' ∈ rest, r = f' ∧ gk = keyOf f'
      · have hall : ∃ f' ∈ f :: rest, r = f' ∧ gk = keyOf f' := by
          obtain ⟨f', hf', hp⟩ := h2
          exact ⟨f', List.mem_cons_of_mem f hf', hp⟩
        rw [if_pos h2, if_pos hall]
      · have hnall : ¬∃ f' ∈ f :: rest, r = f' ∧ gk = keyOf f' := by
          rintro ⟨f', hf', hp⟩
          rcases List.mem_cons.mp hf' with h | h
          · exact h1 (h ▸ hp)
          · exact h2 ⟨f', h, hp⟩
        rw [if_neg h2, if_neg hnall]

/-- C1: group-key idempotence of the notification engine.  Starting from a
store satisfying the at-most-one-live-row invariant for `(r, gk)`, two
upserts targeting `(r, gk)` leave exactly one stored row for the pair; the
second call overwrites the row's actor, type, message and target references,
resets `createdAt` to the second call's time, clears the read flag, and
returns the same notification id as the first call. -/
theorem upsertNotification_group_idempotent
    (db : DB) (now₁ now₂ : Nat) (r : UserId) (gk : GroupKey) (a₁ a₂ : NotifArgs)
    (h₁r : a₁.recipientId = r) (h₁g : a₁.groupKey = some gk)
    (h₂r : a₂.recipientId = r) (h₂g : a₂.groupKey = some gk)
    (hinv : (notifsFor db r gk).length ≤ 1) :
    (notifsFor (upsertNotification (upsertNotification db now₁ a₁).1 now₂ a₂).1 r gk).length = 1 ∧
    (upsertNotification (upsertNotification db now₁ a₁).1 now₂ a₂).2
      = (upsertNotification db now₁ a₁).2 ∧
    ∀ row ∈ notifsFor (upsertNotification (upsertNotification db now₁ a₁).1 now₂ a₂).1 r gk,
      row.2.actorId = a₂.actorId ∧ row.2.type = a₂.type ∧ row.2.message = a₂.message ∧
      row.2.postId = a₂.postId ∧ row.2.commentId = a₂.commentId ∧
      row.2.profileId = a₂.profileId ∧ row.2.createdAt = now₂ ∧ row.2.readAt = none := by
  have step₁ := notifsFor_upsert_target db now₁ a₁ r gk h₁r h₁g
  -- after the first call the slice is a singleton, whatever its initial size
  have hsingle : ∃ row1, notifsFor (upsertNotification db now₁ a₁).1 r gk = [row1] ∧
      (upsertNotification db now₁ a₁).2 = row1.1 := by
    match h0 : notifsFor db r gk with
    | [] =>
      exact ⟨_, step₁.1 h0, rfl⟩
    | [row0] =>
      obtain ⟨hid, hslice⟩ := step₁.2 row0 h0
      exact ⟨_, hslice, hid⟩
    | row0 :: row1 :: t =>
      rw [h0] at hinv
      simp at hinv
  obtain ⟨row1, hrow1, hid1⟩ := hsingle
  have step₂ := (notifsFor_upsert_target (upsertNotification db now₁ a₁).1 now₂ a₂ r gk
      h₂r h₂g).2 row1 hrow1
  obtain ⟨hid2, hslice2⟩ := step₂
  refine ⟨by rw [hslice2]; rfl, by rw [hid2, hid1], ?_⟩
  intro row hrow
  rw [hslice2] at hrow
  simp at hrow
  subst hrow
  simp [patchNotifRow]

/-- Witness for C1: two upserts into an empty store for recipient 7 under the
like-group key leave one row carrying the second call's payload, and both
calls return the same id. -/
theorem upsertNotification_group_idempotent_witness :
    (notifsFor (upsertNotification (upsertNotification DB.empty 3
        { recipientId := 7, actorId := some 1, type := .like, message := "m1",
          groupKey := some (GroupKey.like 0 1) }).1 9
        { recipientId := 7, actorId := some 2, type := .like, message := "m2",
          groupKey := some (GroupKey.like 0 1) }).1 7 (GroupKey.like 0 1)).length = 1 ∧
    (upsertNotification (upsertNotification DB.empty 3
        { recipientId := 7, actorId := some 1, type := .like, message := "m1",
          groupKey := some (GroupKey.like 0 1) }).1 9
        { recipientId := 7, actorId := some 2, type := .like, message := "m2",
          groupKey := some (GroupKey.like 0 1) }).2
      = (upsertNotification DB.empty 3
        { recipientId := 7, actorId := some 1, type := .like, message := "m1",
          groupKey := some (GroupKey.like 0 1) }).2 ∧
    ∀ row ∈ notifsFor (upsertNotification (upsertNotification DB.empty 3
        { recipientId := 7, actorId := some 1, type := .like, message := "m1",
          groupKey := some (GroupKey.like 0 1) }).1 9
        { recipientId := 7, actorId := some 2, type := .like, message := "m2",
          groupKey := some (GroupKey.like 0 1) }).1 7 (GroupKey.like 0 1),
      row.2.actorId = some 2 ∧ row.2.type = .like ∧ row.2.message = "m2" ∧
      row.2.postId = none ∧ row.2.commentId = none ∧
      row.2.profileId = none ∧ row.2.createdAt = 9 ∧ row.2.readAt = none :=
  upsertNotification_group_idempotent DB.empty 3 9 7 (GroupKey.like 0 1)
    { recipientId := 7, actorId := some 1, type := .like, message := "m1",
      groupKey := some (GroupKey.like 0 1) }
    { recipientId := 7, actorId := some 2, type := .like, message := "m2",
      groupKey := some (GroupKey.like 0 1) }
    rfl rfl rfl rfl (by decide)

/-- C2: trending threshold transition — a like-count transition produces
grouped `network_trending` notifications exactly when some threshold `t` in
(5, 10, 25) satisfies `countBefore < t ≤ countAfter`: with no such threshold
the store is untouched; otherwise, writing `t₀` for the lowest crossed
threshold (the head of the crossed-threshold list), each follower `f` of the
author (author excluded) ends up with exactly one notification keyed
`(post, t₀, f)` (given none pre-existed), and no slice keyed to any other
threshold or recipient changes size. -/
theorem notifyTrendingInNetwork_threshold_transition
    (db : DB) (now : Nat) (pid : PostId) (authorId : UserId)
    (likesBefore likesAfter : Nat) :
    ((∀ t ∈ TRENDING_THRESHOLDS, ¬(likesBefore < t ∧ t ≤ likesAfter)) →
      notifyTrendingInNetwork db now pid authorId likesBefore likesAfter = db) ∧
    (∀ t₀ rest, TRENDING_THRESHOLDS.filter
        (fun t => decide (likesBefore < t) && decide (t ≤ likesAfter)) = t₀ :: rest →
      (∀ t ∈ TRENDING_THRESHOLDS, likesBefore < t ∧ t ≤ likesAfter → t₀ ≤ t) ∧
      (∀ f, f ∈ (db.follows.filter (fun fl => fl.followingId == authorId)).map
          (·.followerId) →
        f ≠ authorId →
        notifsFor db f (GroupKey.networkTrending pid t₀ f) = [] →
        (notifsFor (notifyTrendingInNetwork db now pid authorId likesBefore likesAfter)
          f (GroupKey.networkTrending pid t₀ f)).length = 1) ∧
      (∀ r gk, (∀ f, gk ≠ GroupKey.networkTrending pid t₀ f) →
        (notifsFor (notifyTrendingInNetwork db now pid authorId likesBefore likesAfter)
          r gk).length = (notifsFor db r gk).length)) := by
  constructor
  · intro hno
    have hfind : TRENDING_THRESHOLDS.find?
        (fun t => decide (likesBefore < t) && decide (t ≤ likesAfter)) = none := by
      rw [List.find?_eq_none]
      intro t ht
      simp only [Bool.and_eq_true, decide_eq_true_eq]
      rintro ⟨h1, h2⟩
      exact hno t ht ⟨h1, h2⟩
    simp only [notifyTrendingInNetwork, hfind]
  · intro t₀ rest hfilter
    have hfind : TRENDING_THRESHOLDS.find?
        (fun t => decide (likesBefore < t) && decide (t ≤ likesAfter)) = some t₀ := by
      rw [find?_eq_head?_filter, hfilter]
      rfl
    refine ⟨?_, ?_, ?_⟩
    · -- t₀ is the lowest crossed threshold
      have hsortedT : List.Pairwise (· ≤ ·) TRENDING_THRESHOLDS := by decide
      have hsorted' := hsortedT.filter
        (fun t => decide (likesBefore < t) && decide (t ≤ likesAfter))
      rw [hfilter] at hsorted'
      have hrest := (List.pairwise_cons.mp hsorted').1
      intro t ht hcross
      have htf : t ∈ t₀ :: rest := by
        rw [← hfilter]
        exact List.mem_filter.mpr ⟨ht, by simp [hcross.1, hcross.2]⟩
      rcases List.mem_cons.mp htf with h | h
      · exact le_of_eq h.symm
      · exact hrest t h
    · intro f hf hne hempty
      have hne0 : (db.follows.filter (fun fl => fl.followingId == authorId)).map
          (·.followerId) ≠ [] := List.ne_nil_of_mem hf
      have hlenb : ((((db.follows.filter (fun fl => fl.followingId == authorId)).map
          (·.followerId)).length == 0) = false) := by
        simp only [beq_eq_false_iff_ne, ne_eq, List.length_eq_zero]
        exact hne0
      simp only [notifyTrendingInNetwork, hfind, hlenb, Bool.false_eq_true, if_false]
      rw [notifsFor_foldl_upsert_length now _
        (fun followerId => GroupKey.networkTrending pid t₀ followerId)
        (fun _ => rfl) (fun _ => rfl)]
      have hmem : f ∈ ((db.follows.filter (fun fl => fl.followingId == authorId)).map
          (·.followerId)).filter (fun followerId => followerId != authorId) :=
        List.mem_filter.mpr ⟨hf, by simp [hne]⟩
      rw [if_pos ⟨f, hmem, rfl, rfl⟩, hempty]
      rfl
    · intro r gk hgk
      by_cases hlen0 : ((((db.follows.filter (fun fl => fl.followingId == authorId)).map
          (·.followerId)).length == 0) = true)
      · simp only [notifyTrendingInNetwork, hfind, hlen0, if_true]
      · have hlenb : ((((db.follows.filter (fun fl => fl.followingId == authorId)).map
            (·.followerId)).length == 0) = false) := by
          simp only [Bool.not_eq_true] at hlen0
          exact hlen0
        simp only [notifyTrendingInNetwork, hfind, hlenb, Bool.false_eq_true, if_false]
        rw [notifsFor_foldl_upsert_length now _
          (fun followerId => GroupKey.networkTrending pid t₀ followerId)
          (fun _ => rfl) (fun _ => rfl)]
        rw [if_neg]
        rintro ⟨f', _, _, hk⟩
        exact hgk f' hk

/-- Witness for C2: post 7 by author 2 (follower: user 3) moving from 4 to 5
likes yields exactly one `network_trending` notification for the follower,
keyed `(post 7, threshold 5, follower 3)`; moving from 6 to 7 likes leaves
the store untouched. -/
theorem notifyTrendingInNetwork_threshold_transition_witness :
    ((notifsFor (notifyTrendingInNetwork edgeDb 50 7 2 4 5) 3
        (GroupKey.networkTrending 7 5 3)).length = 1) ∧
    (notifyTrendingInNetwork edgeDb 50 7 2 6 7 = edgeDb) :=
  ⟨((notifyTrendingInNetwork_threshold_transition edgeDb 50 7 2 4 5).2 5 []
      (by decide)).2.1 3 (by decide) (by decide) rfl,
   (notifyTrendingInNetwork_threshold_transition edgeDb 50 7 2 6 7).1 (by decide)⟩

theorem deleteNotificationByGroup_retracts_all (db : DB) (r : UserId) (gk : GroupKey) :
    notifsFor (deleteNotificationByGroup db r gk) r gk = [] := by
  unfold deleteNotificationByGroup notifsFor
  rw [List.filter_filter]
  apply List.filter_eq_nil_iff.mpr
  intro a _
  cases h : notifMatchesGroup r gk a <;> simp [h]

/-- Notification writes never touch accounts, likes or posts. -/
theorem upsertNotification_frame (db : DB) (now : Nat) (args : NotifArgs) :
    ((upsertNotification db now args).1).users = db.users ∧
    ((upsertNotification db now args).1).likes = db.likes ∧
    ((upsertNotification db now args).1).posts = db.posts := by
  unfold upsertNotification insertNotification schedulePush
  split
  · split
    · exact ⟨rfl, rfl, rfl⟩
    · exact ⟨rfl, rfl, rfl⟩
  · exact ⟨rfl, rfl, rfl⟩

theorem foldl_upsert_frame (now : Nat) (argsOf : UserId → NotifArgs) :
    ∀ (fids : List UserId) (db : DB),
      ((fids.foldl (fun acc fid => (upsertNotification acc now (argsOf fid)).1) db)).users
          = db.users ∧
      ((fids.foldl (fun acc fid => (upsertNotification acc now (argsOf fid)).1) db)).likes
          = db.likes ∧
      ((fids.foldl (fun acc fid => (upsertNotification acc now (argsOf fid)).1) db)).posts
          = db.posts := by
  intro fids
  induction fids with
  | nil => intro db; exact ⟨rfl, rfl, rfl⟩
  | cons f rest ih =>
    intro db
    rw [List.foldl_cons]
    obtain ⟨h1, h2, h3⟩ := ih ((upsertNotification db now (argsOf f)).1)
    obtain ⟨g1, g2, g3⟩ := upsertNotification_frame db now (argsOf f)
    exact ⟨h1.trans g1, h2.trans g2, h3.trans g3⟩

theorem notifyTrendingInNetwork_frame (db : DB) (now : Nat) (pid : PostId)
    (authorId : UserId) (b a : Nat) :
    (notifyTrendingInNetwork db now pid authorId b a).users = db.users ∧
    (notifyTrendingInNetwork db now pid authorId b a).likes = db.likes ∧
    (notifyTrendingInNetwork db now pid authorId b a).posts = db.posts := by
  unfold notifyTrendingInNetwork
  split
  · exact ⟨rfl, rfl, rfl⟩
  · by_cases hc : ((((db.follows.filter (fun f => f.followingId == authorId)).map
        (·.followerId)).length == 0) = true)
    · simp only [hc, if_true]
      exact ⟨trivial, trivial, trivial⟩
    · simp only [Bool.not_eq_true] at hc
      simp only [hc, Bool.false_eq_true, if_false]
      exact foldl_upsert_frame _ _ _ _

theorem requireNonGuestUserId_congr (db db' : DB) (auth : Option UserId)
    (h : db'.users = db.users) :
    requireNonGuestUserId db' auth = requireNonGuestUserId db auth := by
  unfold requireNonGuestUserId
  rw [h]

theorem find?_append_none (p : α → Bool) (l₁ l₂ : List α) (h : l₁.find? p = none) :
    (l₁ ++ l₂).find? p = l₂.find? p := by
  induction l₁ with
  | nil => rfl
  | cons a t ih =>
    have hpa : p a = false := by
      cases hpa : p a
      · rfl
      · rw [List.find?_cons_of_pos _ hpa] at h; cases h
    rw [List.find?_cons_of_neg _ (by simp [hpa])] at h
    rw [List.cons_append, List.find?_cons_of_neg _ (by simp [hpa])]
    exact ih h

theorem find?_map_of_pred_invariant (g : α → α) (p : α → Bool)
    (hp : ∀ a, p (g a) = p a) (l : List α) :
    (l.map g).find? p = (l.find? p).map g := by
  induction l with
  | nil => rfl
  | cons a t ih =>
    cases h : p a with
    | true =>
      rw [List.map_cons, List.find?_cons_of_pos _ (by rw [hp]; exact h),
        List.find?_cons_of_pos _ h]
      rfl
    | false =>
      rw [List.map_cons, List.find?_cons_of_neg _ (by simp [hp, h]),
        List.find?_cons_of_neg _ (by simp [h])]
      exact ih

theorem patchPost_find?_id (db : DB) (pid : PostId) (f : Post → Post)
    (hid : ∀ p, (f p).id = p.id) :
    (patchPost db pid f).posts.find? (fun p => p.id == pid)
      = (db.posts.find? (fun p => p.id == pid)).map
          (fun p => if p.id == pid then f p else p) := by
  unfold patchPost
  exact find?_map_of_pred_invariant _ _
    (fun a => by by_cases h : (a.id == pid) = true <;> simp [h, hid a]) db.posts

theorem upsert_insert_eq_of_none (db : DB) (now : Nat) (args : NotifArgs)
    (hg : args.groupKey = none) :
    upsertNotification db now args = insertNotification db now args := by
  simp only [upsertNotification, hg]

theorem upsert_insert_eq_of_not_found (db : DB) (now : Nat) (args : NotifArgs)
    (gk' : GroupKey) (hg : args.groupKey = some gk')
    (hfind : db.notifications.find? (notifMatchesGroup args.recipientId gk') = none) :
    upsertNotification db now args = insertNotification db now args := by
  simp only [upsertNotification, hg, hfind]

theorem upsert_patch_eq (db : DB) (now : Nat) (args : NotifArgs)
    (gk' : GroupKey) (found : NotifId × Notification) (hg : args.groupKey = some gk')
    (hfind : db.notifications.find? (notifMatchesGroup args.recipientId gk') = some found) :
    upsertNotification db now args = (schedulePush
      { db with notifications := db.notifications.map (fun row =>
          if row.1 == found.1 then (row.1, patchNotifRow args now row.2) else row) } found.1,
      found.1) := by
  simp only [upsertNotification, hg, hfind]

theorem notifIdsWF_of_eq (db db' : DB)
    (hn : db'.notifications = db.notifications) (hle : db.nextId ≤ db'.nextId)
    (hwf : NotifIdsWF db) : NotifIdsWF db' := by
  refine ⟨by rw [hn]; exact hwf.1, ?_⟩
  intro row hrow
  rw [hn] at hrow
  exact lt_of_lt_of_le (hwf.2 row hrow) hle

theorem insertNotification_wf (db : DB) (now : Nat) (args : NotifArgs)
    (hwf : NotifIdsWF db) : NotifIdsWF (insertNotification db now args).1 := by
  unfold insertNotification schedulePush
  constructor
  · rw [List.map_append]
    refine List.Nodup.append hwf.1 (List.nodup_singleton _) ?_
    intro a ha hb
    simp at hb
    subst hb
    obtain ⟨row, hrow, hid⟩ := List.mem_map.mp ha
    have hlt := hwf.2 row hrow
    have hid' : row.1 = db.nextId := hid
    exact absurd hid' (Nat.ne_of_lt hlt)
  · intro row hrow
    rcases List.mem_append.mp hrow with h | h
    · have hlt := hwf.2 row h
      exact Nat.lt_succ_of_lt hlt
    · simp at h
      subst h
      exact Nat.lt_succ_self _

theorem patchMap_ids (db : DB) (now : Nat) (args : NotifArgs) (nid : NotifId) :
    (db.notifications.map (fun row =>
        if row.1 == nid then (row.1, patchNotifRow args now row.2) else row)).map (·.1)
      = db.notifications.map (·.1) := by
  rw [List.map_map]
  apply List.map_congr_left
  intro row _
  by_cases h : (row.1 == nid) = true
  · show (if row.1 == nid then (row.1, patchNotifRow args now row.2) else row).1 = row.1
    rw [if_pos h]
  · show (if row.1 == nid then (row.1, patchNotifRow args now row.2) else row).1 = row.1
    rw [if_neg h]

theorem upsertNotification_wf (db : DB) (now : Nat) (args : NotifArgs)
    (hwf : NotifIdsWF db) : NotifIdsWF (upsertNotification db now args).1 := by
  cases hg : args.groupKey with
  | none =>
    rw [upsert_insert_eq_of_none db now args hg]
    exact insertNotification_wf db now args hwf
  | some gk' =>
    cases hfind : db.notifications.find? (notifMatchesGroup args.recipientId gk') with
    | none =>
      rw [upsert_insert_eq_of_not_found db now args gk' hg hfind]
      exact insertNotification_wf db now args hwf
    | some found =>
      rw [upsert_patch_eq db now args gk' found hg hfind]
      constructor
      · show ((db.notifications.map (fun row =>
            if row.1 == found.1 then (row.1, patchNotifRow args now row.2) else row)).map
              (·.1)).Nodup
        rw [patchMap_ids]
        exact hwf.1
      · intro row hrow
        have hrow' : row ∈ db.notifications.map (fun row =>
            if row.1 == found.1 then (row.1, patchNotifRow args now row.2) else row) := hrow
        obtain ⟨orig, horig, heq⟩ := List.mem_map.mp hrow'
        have hlt := hwf.2 orig horig
        show row.1 < db.nextId
        by_cases h : (orig.1 == found.1) = true
        · rw [if_pos h] at heq
          rw [← heq]
          exact hlt
        · rw [if_neg h] at heq
          rw [← heq]
          exact hlt

/-- Rows after one upsert: every row either pre-existed or carries the
upsert's recipient, type and actor (needs unique ids, else an id-aliased row
could be patched). -/
theorem upsertNotification_mem (db : DB) (now : Nat) (args : NotifArgs)
    (hwf : NotifIdsWF db) (row : NotifId × Notification)
    (h : row ∈ ((upsertNotification db now args).1).notifications) :
    row ∈ db.notifications ∨
      (row.2.recipientId = args.recipientId ∧ row.2.type = args.type ∧
        row.2.actorId = args.actorId) := by
  have hins : row ∈ ((insertNotification db now args).1).notifications →
      row ∈ db.notifications ∨
        (row.2.recipientId = args.recipientId ∧ row.2.type = args.type ∧
          row.2.actorId = args.actorId) := by
    intro hmem
    unfold insertNotification schedulePush at hmem
    rcases List.mem_append.mp hmem with h' | h'
    · exact Or.inl h'
    · right
      simp at h'
      subst h'
      exact ⟨rfl, rfl, rfl⟩
  cases hg : args.groupKey with
  | none =>
    rw [upsert_insert_eq_of_none db now args hg] at h
    exact hins h
  | some gk' =>
    cases hfind : db.notifications.find? (notifMatchesGroup args.recipientId gk') with
    | none =>
      rw [upsert_insert_eq_of_not_found db now args gk' hg hfind] at h
      exact hins h
    | some found =>
      rw [upsert_patch_eq db now args gk' found hg hfind] at h
      obtain ⟨orig, horig, heq⟩ := List.mem_map.mp h
      by_cases hid : (orig.1 == found.1) = true
      · right
        rw [if_pos hid] at heq
        have hfmem := List.mem_of_find?_eq_some hfind
        have horigeq : orig = found := by
          have hinj := List.inj_on_of_nodup_map hwf.1
          exact hinj horig hfmem (by simpa using hid)
        have hfpred : notifMatchesGroup args.recipientId gk' found = true :=
          List.find?_some hfind
        simp [notifMatchesGroup] at hfpred
        rw [← heq, horigeq]
        exact ⟨by simpa [patchNotifRow] using hfpred.1, rfl, rfl⟩
      · rw [if_neg hid] at heq
        rw [← heq]
        exact Or.inl horig

theorem foldl_upsert_wf (now : Nat) (argsOf : UserId → NotifArgs) :
    ∀ (fids : List UserId) (db : DB), NotifIdsWF db →
      NotifIdsWF ((fids.foldl (fun acc fid => (upsertNotification acc now (argsOf fid)).1) db)) := by
  intro fids
  induction fids with
  | nil => intro db hwf; exact hwf
  | cons f rest ih =>
    intro db hwf
    rw [List.foldl_cons]
    exact ih _ (upsertNotification_wf db now (argsOf f) hwf)

theorem foldl_upsert_mem (now : Nat) (argsOf : UserId → NotifArgs) :
    ∀ (fids : List UserId) (db : DB), NotifIdsWF db →
      ∀ row ∈ ((fids.foldl (fun acc fid =>
          (upsertNotification acc now (argsOf fid)).1) db)).notifications,
        row ∈ db.notifications ∨ ∃ f ∈ fids,
          row.2.recipientId = (argsOf f).recipientId ∧ row.2.type = (argsOf f).type ∧
          row.2.actorId = (argsOf f).actorId := by
  intro fids
  induction fids with
  | nil => intro db _ row hrow; exact Or.inl hrow
  | cons f rest ih =>
    intro db hwf row hrow
    rw [List.foldl_cons] at hrow
    rcases ih _ (upsertNotification_wf db now (argsOf f) hwf) row hrow with h | ⟨f', hf', hp⟩
    · rcases upsertNotification_mem db now (argsOf f) hwf row h with h' | h'
      · exact Or.inl h'
      · exact Or.inr ⟨f, List.mem_cons_self f rest, h'⟩
    · exact Or.inr ⟨f', List.mem_cons_of_mem f hf', hp⟩

/-- C3: unlike retracts — for an actor distinct from the post's author, a
like (no prior like) followed by an unlike leaves zero stored notifications
for the `(post, actor)` like group key; and `deleteNotificationByGroup`
removes every notification for its `(recipient, groupKey)` pair, not just
the first. -/
theorem toggleLike_unlike_retracts (db : DB) (now₁ now₂ : Nat) (auth : Option UserId)
    (u : UserId) (pid : PostId) (post : Post)
    (hauth : requireNonGuestUserId db auth = .ok u)
    (hpost : db.posts.find? (fun p => p.id == pid) = some post)
    (hauthor : post.authorId ≠ u)
    (hnolike : db.likes.find? (fun l => l.userId == u && l.postId == pid) = none) :
    (∃ db₁ db₂,
      toggleLike db now₁ auth pid = .ok (true, db₁) ∧
      toggleLike db₁ now₂ auth pid = .ok (false, db₂) ∧
      notifsFor db₂ post.authorId (GroupKey.like pid u) = []) ∧
    (∀ (db' : DB) (r : UserId) (gk : GroupKey),
      notifsFor (deleteNotificationByGroup db' r gk) r gk = []) := by
  refine ⟨?_, fun db' r gk => deleteNotificationByGroup_retracts_all db' r gk⟩
  have hbne : (post.authorId != u) = true := bne_iff_ne.mpr hauthor
  have h1 : ∃ db₁, toggleLike db now₁ auth pid = .ok (true, db₁) ∧
      db₁.users = db.users ∧
      db₁.likes = db.likes ++ [{ userId := u, postId := pid }] ∧
      ∃ post', db₁.posts.find? (fun p => p.id == pid) = some post' ∧
        post'.authorId = post.authorId := by
    simp only [toggleLike, hauth, hnolike, hpost, hbne, if_true]
    refine ⟨_, rfl, ?_, ?_, ?_⟩
    · exact ((notifyTrendingInNetwork_frame _ _ _ _ _ _).1).trans
        ((upsertNotification_frame _ _ _).1)
    · exact ((notifyTrendingInNetwork_frame _ _ _ _ _ _).2.1).trans
        ((upsertNotification_frame _ _ _).2.1)
    · have hpred : (post.id == pid) = true := by
        have hx := List.find?_some hpost
        simpa using hx
      refine ⟨if (post.id == pid) = true then
          { post with likesCount := post.likesCount + 1 } else post, ?_, ?_⟩
      · have hx : (patchPost
            { db with likes := db.likes ++ [{ userId := u, postId := pid }] }
            pid (fun p => { p with likesCount := post.likesCount + 1 })).posts.find?
              (fun p => p.id == pid)
            = (db.posts.find? (fun p => p.id == pid)).map
                (fun p => if p.id == pid then
                  { p with likesCount := post.likesCount + 1 } else p) :=
          patchPost_find?_id _ _ _ (fun p => rfl)
        rw [((notifyTrendingInNetwork_frame _ _ _ _ _ _).2.2).trans
            ((upsertNotification_frame _ _ _).2.2), hx, hpost]
        rfl
      · rw [if_pos hpred]
  obtain ⟨db₁, h1, husers, hlikes, post', hfind', hauthor'⟩ := h1
  have hauth₁ : requireNonGuestUserId db₁ auth = .ok u :=
    (requireNonGuestUserId_congr db db₁ auth husers).trans hauth
  have hfound : db₁.likes.find? (fun l => l.userId == u && l.postId == pid)
      = some { userId := u, postId := pid } := by
    rw [hlikes, find?_append_none _ _ _ hnolike]
    exact List.find?_cons_of_pos _ (by simp)
  have hbne' : (post'.authorId != u) = true := by rw [hauthor']; exact hbne
  have h2 : ∃ db₂, toggleLike db₁ now₂ auth pid = .ok (false, db₂) ∧
      notifsFor db₂ post.authorId (GroupKey.like pid u) = [] := by
    simp only [toggleLike, hauth₁, hfound, hfind', hbne', if_true]
    refine ⟨_, rfl, ?_⟩
    rw [← hauthor']
    exact deleteNotificationByGroup_retracts_all _ _ _
  obtain ⟨db₂, h2, h3⟩ := h2
  exact ⟨db₁, db₂, h1, h2, h3⟩

/-- Witness for C3: user 1 likes then unlikes post 7 (authored by user 2);
afterwards no notification for the `(post 7, actor 1)` like key remains, and
the retraction deletes all matches for an arbitrary concrete key. -/
theorem toggleLike_unlike_retracts_witness :
    (∃ db₁ db₂,
      toggleLike likeDb 11 (some 1) 7 = .ok (true, db₁) ∧
      toggleLike db₁ 12 (some 1) 7 = .ok (false, db₂) ∧
      notifsFor db₂ (feedPost 7 2 1).authorId (GroupKey.like 7 1) = []) ∧
    (∀ (db' : DB) (r : UserId) (gk : GroupKey),
      notifsFor (deleteNotificationByGroup db' r gk) r gk = []) :=
  toggleLike_unlike_retracts likeDb 11 12 (some 1) 1 7 (feedPost 7 2 1)
    rfl rfl (by decide) rfl

/-- C4: mention extraction and fan-out — the handles of a comment body are
the @-pattern matches (2–32 of letters, digits, `_`, `.`, `-`), lower-cased
and de-duplicated; the comment "@alice great track @bob" with both handles
resolving (case-insensitively, against current display names) to users
distinct from the comment author and the post author produces exactly two
mention notifications, one per mentioned user; and in any `addComment`, a
mentioned user equal to the comment author or the post author receives no
mention notification — every mention-typed row is either pre-existing or
addressed to a recipient that is neither of them. -/
theorem addComment_mention_fanout (db : DB) (now : Nat) (auth : Option UserId)
    (pid : PostId) (content : String) (u : UserId) (post : Post) (c : CommentId) (db' : DB)
    (hwf : NotifIdsWF db)
    (hauth : requireNonGuestUserId db auth = .ok u)
    (hpost : db.posts.find? (fun p => p.id == pid) = some post)
    (hok : addComment db now auth pid content = .ok (c, db')) :
    (extractMentions "@alice great track @bob" = ["alice", "bob"]) ∧
    (∃ dbm, addComment mentionDb 9 (some 3) 7 "@alice great track @bob" = .ok (50, dbm) ∧
      (dbm.notifications.filter
        (fun row => row.2.type == NotificationType.mention)).length = 2 ∧
      (notifsFor dbm 1 (GroupKey.mention 50 1)).length = 1 ∧
      (notifsFor dbm 2 (GroupKey.mention 50 2)).length = 1) ∧
    (∀ row ∈ db'.notifications, row.2.type = NotificationType.mention →
      row ∈ db.notifications ∨
        (row.2.recipientId ≠ u ∧ row.2.recipientId ≠ post.authorId)) := by
  refine ⟨by decide, ⟨_, rfl, by decide, by decide, by decide⟩, ?_⟩
  intro row hrow htype
  simp only [addComment, hauth, hpost] at hok
  by_cases htrim : trimChars content = ""
  · rw [if_pos htrim] at hok
    cases hok
  · rw [if_neg htrim] at hok
    simp only [Except.ok.injEq, Prod.mk.injEq] at hok
    obtain ⟨-, hdb⟩ := hok
    subst hdb
    by_cases hbne : (post.authorId != u) = true
    · rw [if_pos hbne] at hrow
      rcases foldl_upsert_mem now _ _ _
          (upsertNotification_wf _ now _
            (notifIdsWF_of_eq db _ (by rfl) (by exact Nat.le_succ _) hwf)) row hrow with h | ⟨f, hf, hp⟩
      · rcases upsertNotification_mem _ now _
            (notifIdsWF_of_eq db _ (by rfl) (by exact Nat.le_succ _) hwf) row h with h' | h'
        · exact Or.inl h'
        · rw [htype] at h'
          cases h'.2.1
      · right
        have hfm := List.mem_filter.mp hf
        have hcond := hfm.2
        simp only [Bool.and_eq_true, bne_iff_ne, ne_eq] at hcond
        rw [hp.1]
        exact ⟨hcond.1, hcond.2⟩
    · rw [if_neg hbne] at hrow
      rcases foldl_upsert_mem now _ _ _
          (notifIdsWF_of_eq db _ (by rfl) (by exact Nat.le_succ _) hwf) row hrow with h | ⟨f, hf, hp⟩
      · exact Or.inl h
      · right
        have hfm := List.mem_filter.mp hf
        have hcond := hfm.2
        simp only [Bool.and_eq_true, bne_iff_ne, ne_eq] at hcond
        rw [hp.1]
        exact ⟨hcond.1, hcond.2⟩

/-- Witness for C4: concrete instantiation — commenter 3 comments "hi" on
post 7 (authored by user 4); every hypothesis is discharged on that concrete
store, and the conclusion carries the concrete mention facts. -/
theorem addComment_mention_fanout_witness :
    (extractMentions "@alice great track @bob" = ["alice", "bob"]) ∧
    (∃ dbm, addComment mentionDb 9 (some 3) 7 "@alice great track @bob" = .ok (50, dbm) ∧
      (dbm.notifications.filter
        (fun row => row.2.type == NotificationType.mention)).length = 2 ∧
      (notifsFor dbm 1 (GroupKey.mention 50 1)).length = 1 ∧
      (notifsFor dbm 2 (GroupKey.mention 50 2)).length = 1) ∧
    (∀ row ∈ (match addComment mentionDb 9 (some 3) 7 "hi" with
        | .ok p => p.2
        | .error _ => DB.empty).notifications, row.2.type = NotificationType.mention →
      row ∈ mentionDb.notifications ∨
        (row.2.recipientId ≠ 3 ∧ row.2.recipientId ≠ (feedPost 7 4 1).authorId)) :=
  addComment_mention_fanout mentionDb 9 (some 3) 7 "hi" 3 (feedPost 7 4 1) 50
    (match addComment mentionDb 9 (some 3) 7 "hi" with
      | .ok p => p.2
      | .error _ => DB.empty)
    ⟨by decide, by decide⟩ rfl rfl rfl

/-- C5: presence lazy staleness — a stored-active presence record reads back
inactive (and stale) exactly when `now - lastSeenAt` exceeds the 2-minute
window, active otherwise, and the read leaves the store unchanged. -/
theorem getUserPresence_lazy_staleness (db : DB) (now : Nat) (userId : UserId)
    (p : PresenceRec)
    (hfind : db.userPresence.find? (fun q => q.userId == userId) = some p)
    (hactive : p.isActive = true) :
    ((PRESENCE_INACTIVITY_MS < now - p.lastSeenAt →
        (getUserPresence db now userId).1 =
          some { presence := { p with isActive := false },
                 isActive := false, isStale := true }) ∧
     (now - p.lastSeenAt ≤ PRESENCE_INACTIVITY_MS →
        (getUserPresence db now userId).1 =
          some { presence := { p with isActive := true },
                 isActive := true, isStale := false })) ∧
    (getUserPresence db now userId).2 = db := by
  unfold getUserPresence
  rw [hfind]
  refine ⟨⟨?_, ?_⟩, rfl⟩
  · intro h
    have hd : decide (now - p.lastSeenAt ≤ PRESENCE_INACTIVITY_MS) = false := by
      simp [Nat.not_le.mpr h]
    simp [hd, hactive]
    omega
  · intro h
    have hd : decide (now - p.lastSeenAt ≤ PRESENCE_INACTIVITY_MS) = true := by
      simp [h]
    simp [hd, hactive]
    omega

/-- Witness for C5: with `lastSeenAt = 0` and stored `isActive = true`, a
read 3 minutes later surfaces the record as inactive, a read 30 seconds
later as active, and the store is unchanged. -/
theorem getUserPresence_lazy_staleness_witness :
    ((getUserPresence presDb 180000 5).1 =
        some { presence := { presRec with isActive := false },
               isActive := false, isStale := true } ∧
     (getUserPresence presDb 30000 5).1 =
        some { presence := { presRec with isActive := true },
               isActive := true, isStale := false }) ∧
    (getUserPresence presDb 180000 5).2 = presDb :=
  ⟨⟨(getUserPresence_lazy_staleness presDb 180000 5 presRec rfl rfl).1.1 (by decide),
    (getUserPresence_lazy_staleness presDb 30000 5 presRec rfl rfl).1.2 (by decide)⟩,
   (getUserPresence_lazy_staleness presDb 180000 5 presRec rfl rfl).2⟩

theorem erase_first_eq_filter (ep : String) :
    ∀ (l : List PushSub), ((l.map (·.endpoint)).Nodup) →
      ∀ ex, l.find? (fun s => s.endpoint == ep) = some ex →
      l.erase ex = l.filter (fun s => !(s.endpoint == ep)) := by
  intro l
  induction l with
  | nil => intro _ ex hfind; cases hfind
  | cons a t ih =>
    intro hnodup ex hfind
    have hnodup' := List.nodup_cons.mp hnodup
    cases pa : (a.endpoint == ep) with
    | true =>
      rw [List.find?_cons_of_pos (p := fun s => s.endpoint == ep) t pa] at hfind
      injection hfind with hex
      subst hex
      rw [List.erase_cons_head, List.filter_cons]
      simp only [pa, Bool.not_true, Bool.false_eq_true, if_false]
      symm
      apply List.filter_eq_self.mpr
      intro s hs
      have hsne : s.endpoint ≠ a.endpoint := by
        intro hcontra
        have hm : s.endpoint ∈ t.map (·.endpoint) := List.mem_map_of_mem (·.endpoint) hs
        rw [hcontra] at hm
        exact hnodup'.1 hm
      have hsf : (s.endpoint == ep) = false := by
        have hae : a.endpoint = ep := eq_of_beq pa
        rw [← hae]
        exact beq_eq_false_iff_ne.mpr hsne
      simp [hsf]
    | false =>
      rw [List.find?_cons_of_neg (p := fun s => s.endpoint == ep) t (by simp [pa])] at hfind
      have hex_pred := List.find?_some hfind
      have hane : (a == ex) = false := by
        apply beq_eq_false_iff_ne.mpr
        intro hae
        have hcontra : (a.endpoint == ep) = true := by
          rw [hae]
          exact hex_pred
        rw [pa] at hcontra
        cases hcontra
      rw [List.erase_cons_tail ?_, List.filter_cons]
      · simp only [pa, Bool.not_false, if_true]
        rw [ih hnodup'.2 ex hfind]
      · simp [hane]

theorem removePush_eq_filter (db : DB) (ep : String)
    (hnodup : (db.pushSubscriptions.map (·.endpoint)).Nodup) :
    (removePushSubscriptionByEndpoint db ep).pushSubscriptions
      = db.pushSubscriptions.filter (fun s => !(s.endpoint == ep)) := by
  unfold removePushSubscriptionByEndpoint
  cases hfind : db.pushSubscriptions.find? (fun s => s.endpoint == ep) with
  | none =>
    have hall := List.find?_eq_none.mp hfind
    symm
    apply List.filter_eq_self.mpr
    intro s hs
    have hf := hall s hs
    simp only [Bool.not_eq_true] at hf ⊢
    simp [hf]
  | some ex =>
    exact erase_first_eq_filter ep db.pushSubscriptions hnodup ex hfind

theorem removePush_nodup (db : DB) (ep : String)
    (h : (db.pushSubscriptions.map (·.endpoint)).Nodup) :
    ((removePushSubscriptionByEndpoint db ep).pushSubscriptions.map (·.endpoint)).Nodup := by
  unfold removePushSubscriptionByEndpoint
  split
  · exact List.Nodup.sublist (List.Sublist.map _ (List.erase_sublist _ _)) h
  · exact h

/-- The push fan-out fold: every endpoint is attempted in order, and the
surviving registrations are exactly those not reported gone. -/
theorem dispatch_fold_spec (send : String → PushPayload → SendResult) (payload : PushPayload) :
    ∀ (L : List PushSub) (db0 : DB) (att : List String),
      (db0.pushSubscriptions.map (·.endpoint)).Nodup →
      (L.foldl (fun (acc : DB × List String) subscription =>
          let db := match send subscription.endpoint payload with
            | .delivered => acc.1
            | .failed status =>
              if status == some 404 || status == some 410 then
                removePushSubscriptionByEndpoint acc.1 subscription.endpoint
              else acc.1
          (db, acc.2 ++ [subscription.endpoint])) (db0, att)).2
        = att ++ L.map (·.endpoint) ∧
      ((L.foldl (fun (acc : DB × List String) subscription =>
          let db := match send subscription.endpoint payload with
            | .delivered => acc.1
            | .failed status =>
              if status == some 404 || status == some 410 then
                removePushSubscriptionByEndpoint acc.1 subscription.endpoint
              else acc.1
          (db, acc.2 ++ [subscription.endpoint])) (db0, att)).1).pushSubscriptions
        = db0.pushSubscriptions.filter (fun s =>
            !(isGoneStatus (send s.endpoint payload) &&
              L.any (fun sub => sub.endpoint == s.endpoint))) := by
  intro L
  induction L with
  | nil =>
    intro db0 att _
    refine ⟨by simp, ?_⟩
    symm
    apply List.filter_eq_self.mpr
    intro s _
    simp
  | cons sub rest ih =>
    intro db0 att hnodup
    rw [List.foldl_cons]
    cases hsend : send sub.endpoint payload with
    | delivered =>
      simp only [hsend]
      obtain ⟨ih1, ih2⟩ := ih db0 (att ++ [sub.endpoint]) hnodup
      refine ⟨by rw [ih1]; simp, ?_⟩
      rw [ih2]
      apply List.filter_congr
      intro s _
      by_cases he : (sub.endpoint == s.endpoint) = true
      · have heq : s.endpoint = sub.endpoint := (eq_of_beq he).symm
        rw [heq, hsend]
        simp [isGoneStatus, List.any_cons, he]
      · simp only [Bool.not_eq_true] at he
        simp [List.any_cons, he]
    | failed status =>
      cases hgone : (status == some 404 || status == some 410) with
      | false =>
        simp only [hsend, hgone, Bool.false_eq_true, if_false]
        obtain ⟨ih1, ih2⟩ := ih db0 (att ++ [sub.endpoint]) hnodup
        refine ⟨by rw [ih1]; simp, ?_⟩
        rw [ih2]
        apply List.filter_congr
        intro s _
        by_cases he : (sub.endpoint == s.endpoint) = true
        · have heq : s.endpoint = sub.endpoint := (eq_of_beq he).symm
          rw [heq, hsend]
          simp [isGoneStatus, List.any_cons, he, hgone]
        · simp only [Bool.not_eq_true] at he
          simp [List.any_cons, he]
      | true =>
        simp only [hsend, hgone, if_true]
        obtain ⟨ih1, ih2⟩ := ih (removePushSubscriptionByEndpoint db0 sub.endpoint)
          (att ++ [sub.endpoint]) (removePush_nodup db0 sub.endpoint hnodup)
        refine ⟨by rw [ih1]; simp, ?_⟩
        rw [ih2, removePush_eq_filter db0 sub.endpoint hnodup, List.filter_filter]
        apply List.filter_congr
        intro s _
        by_cases he : (sub.endpoint == s.endpoint) = true
        · have heq : s.endpoint = sub.endpoint := (eq_of_beq he).symm
          have he' : (s.endpoint == sub.endpoint) = true := beq_iff_eq.mpr heq
          rw [heq, hsend]
          simp [isGoneStatus, List.any_cons, he, he', hgone]
        · have hne : sub.endpoint ≠ s.endpoint := by
            simpa using he
          have he' : (s.endpoint == sub.endpoint) = false :=
            beq_eq_false_iff_ne.mpr (Ne.symm hne)
          simp only [Bool.not_eq_true] at he
          simp [List.any_cons, he, he']

/-- C6: push self-healing prunes only gone endpoints — with push configured
and dispatch data present, every one of the recipient's endpoints is
attempted (in order, independently: the fold is total, so no endpoint's
failure propagates out of the dispatch or prevents the other attempts), and
the surviving registrations are exactly the stored ones except those
endpoints of the recipient whose delivery attempt failed with status 404 or
410; in particular a 500-failing endpoint's registration is left intact. -/
theorem dispatchPush_self_healing (env : PushEnv) (send : String → PushPayload → SendResult)
    (db : DB) (nid : NotifId) (n : Notification) (subs : List PushSub)
    (hconf : isWebPushConfigured env = true)
    (hdata : getPushDispatchData db nid = some (n, subs))
    (hnodup : (db.pushSubscriptions.map (·.endpoint)).Nodup) :
    (dispatchPushForNotification env send db nid).2 = subs.map (·.endpoint) ∧
    ((dispatchPushForNotification env send db nid).1).pushSubscriptions
      = db.pushSubscriptions.filter (fun s =>
          !(isGoneStatus (send s.endpoint (renderPushPayload env nid n)) &&
            subs.any (fun sub => sub.endpoint == s.endpoint))) := by
  have hred : dispatchPushForNotification env send db nid
      = subs.foldl (fun (acc : DB × List String) subscription =>
          let db := match send subscription.endpoint (renderPushPayload env nid n) with
            | .delivered => acc.1
            | .failed status =>
              if status == some 404 || status == some 410 then
                removePushSubscriptionByEndpoint acc.1 subscription.endpoint
              else acc.1
          (db, acc.2 ++ [subscription.endpoint])) (db, []) := by
    simp only [dispatchPushForNotification, hconf, Bool.not_true, Bool.false_eq_true,
      if_false, hdata]
  obtain ⟨h1, h2⟩ := dispatch_fold_spec send (renderPushPayload env nid n) subs db [] hnodup
  rw [hred]
  exact ⟨by rw [h1]; simp, h2⟩

/-- Witness for C6: with three registered endpoints for the recipient, where
"ep410" reports gone (410) and "ep500" fails transiently (500), all three
are attempted, "ep410" alone is pruned, "ep500" and "epok" survive, and the
other user's registration is untouched. -/
theorem dispatchPush_self_healing_witness :
    (dispatchPushForNotification pushEnvFix sendFix pushDb 1).2
      = [pushSubFix 1 1 "ep410", pushSubFix 2 1 "ep500", pushSubFix 3 1 "epok"].map
          (·.endpoint) ∧
    ((dispatchPushForNotification pushEnvFix sendFix pushDb 1).1).pushSubscriptions
      = pushDb.pushSubscriptions.filter (fun s =>
          !(isGoneStatus (sendFix s.endpoint (renderPushPayload pushEnvFix 1 pushNotifFix)) &&
            [pushSubFix 1 1 "ep410", pushSubFix 2 1 "ep500", pushSubFix 3 1 "epok"].any
              (fun sub => sub.endpoint == s.endpoint))) :=
  dispatchPush_self_healing pushEnvFix sendFix pushDb 1 pushNotifFix
    [pushSubFix 1 1 "ep410", pushSubFix 2 1 "ep500", pushSubFix 3 1 "epok"]
    rfl rfl (by decide)

/-- C7: feed scope — for a viewer following exactly `B`, the personal feed
contains only posts by the viewer or `B`, has at most `n` posts, is in
descending creation order, and is computed as a 2n most-recent candidate
window filtered to the following set plus the viewer and truncated to `n`;
the public feed is the unfiltered most-recent `n` posts in descending
creation order. -/
theorem feed_scope (db : DB) (v B : UserId) (n : Nat) (hn : n ≠ 0)
    (hfollows : db.follows.filter (fun f => f.followerId == v)
      = [{ followerId := v, followingId := B }])
    (hsorted : (postsDesc db).Pairwise (fun p q => q.creationTime ≤ p.creationTime)) :
    (∀ p ∈ getFeedPosts db (some v) (some n), p.authorId = v ∨ p.authorId = B) ∧
    (getFeedPosts db (some v) (some n)).length ≤ n ∧
    (getFeedPosts db (some v) (some n)).Pairwise
      (fun p q => q.creationTime ≤ p.creationTime) ∧
    getFeedPosts db (some v) (some n)
      = (((postsDesc db).take (n * 2)).filter
          (fun post => [B, v].contains post.authorId)).take n ∧
    getPublicFeedPosts db (some v) (some n) = (postsDesc db).take n ∧
    (getPublicFeedPosts db (some v) (some n)).Pairwise
      (fun p q => q.creationTime ≤ p.creationTime) := by
  have hlim : effectiveLimit (some n) = n := by simp [effectiveLimit, hn]
  have heq : getFeedPosts db (some v) (some n)
      = (((postsDesc db).take (n * 2)).filter
          (fun post => [B, v].contains post.authorId)).take n := by
    simp only [getFeedPosts, hlim, hfollows]
    rfl
  have hpub : getPublicFeedPosts db (some v) (some n) = (postsDesc db).take n := by
    simp only [getPublicFeedPosts, hlim]
  have hsub : List.Sublist ((((postsDesc db).take (n * 2)).filter
      (fun post => [B, v].contains post.authorId)).take n) (postsDesc db) :=
    List.Sublist.trans (List.Sublist.trans (List.take_sublist _ _) (List.filter_sublist _))
      (List.take_sublist _ _)
  refine ⟨?_, ?_, ?_, heq, hpub, ?_⟩
  · intro p hp
    rw [heq] at hp
    have hmem := List.mem_filter.mp (List.mem_of_mem_take hp)
    have := hmem.2
    simp [List.contains_eq_any_beq] at this
    tauto
  · rw [heq, List.length_take]
    exact min_le_left _ _
  · rw [heq]
    exact List.Pairwise.sublist hsub hsorted
  · rw [hpub]
    exact List.Pairwise.sublist (List.take_sublist _ _) hsorted

/-- Witness for C7: viewer 1 follows exactly user 2; with limit 2 the
personal feed keeps only the viewer's and user 2's posts newest-first and
the public feed is the unfiltered two most recent posts. -/
theorem feed_scope_witness :
    (∀ p ∈ getFeedPosts feedDb (some 1) (some 2), p.authorId = 1 ∨ p.authorId = 2) ∧
    (getFeedPosts feedDb (some 1) (some 2)).length ≤ 2 ∧
    (getFeedPosts feedDb (some 1) (some 2)).Pairwise
      (fun p q => q.creationTime ≤ p.creationTime) ∧
    getFeedPosts feedDb (some 1) (some 2)
      = (((postsDesc feedDb).take (2 * 2)).filter
          (fun post => [2, 1].contains post.authorId)).take 2 ∧
    getPublicFeedPosts feedDb (some 1) (some 2) = (postsDesc feedDb).take 2 ∧
    (getPublicFeedPosts feedDb (some 1) (some 2)).Pairwise
      (fun p q => q.creationTime ≤ p.creationTime) :=
  feed_scope feedDb 1 2 2 (by decide) (by decide) (by decide)

/-- Counterexample to C8 as stated: user 1 already likes post 7, yet calling
the like operation again does not raise a duplicate-like error — it succeeds
as an unlike, returning `false` and removing the like row. -/
theorem toggleLike_duplicate_not_error_counterexample :
    toggleLike dupDb 5 (some 1) 7 = .ok (false, { dupDb with likes := [] }) := rfl

/-- C8 (amended): duplicate follow is a user-visible "Already following this
user" error; the like operation, however, is a toggle — invoking it with an
existing like does not raise and is not a silent no-op: it succeeds as an
unlike, returning `false` and removing the stored like row. -/
theorem duplicate_engagement_amended (db : DB) (now : Nat) (auth : Option UserId)
    (u target : UserId) (pid : PostId) (post : Post) (lk : LikeRow)
    (hauth : requireNonGuestUserId db auth = .ok u)
    (hne : u ≠ target)
    (hfollow : (db.follows.find? (fun f =>
      f.followerId == u && f.followingId == target)).isSome = true)
    (hpost : db.posts.find? (fun p => p.id == pid) = some post)
    (hlike : db.likes.find? (fun l => l.userId == u && l.postId == pid) = some lk) :
    followUser db now auth target = .error "Already following this user" ∧
    ∃ db', toggleLike db now auth pid = .ok (false, db') ∧
      db'.likes = db.likes.erase lk := by
  constructor
  · simp only [followUser, hauth]
    rw [if_neg hne, if_pos hfollow]
  · simp only [toggleLike, hauth, hlike, hpost]
    refine ⟨_, rfl, ?_⟩
    by_cases hb : (post.authorId != u) = true
    · simp only [hb, if_true]
      rfl
    · simp only [Bool.not_eq_true] at hb
      simp only [hb, Bool.false_eq_true, if_false]
      rfl

/-- Witness for C8 (amended) at a concrete store: user 1 already follows
user 2 and already likes post 7. -/
theorem duplicate_engagement_amended_witness :
    followUser dupDb 5 (some 1) 2 = .error "Already following this user" ∧
    ∃ db', toggleLike dupDb 5 (some 1) 7 = .ok (false, db') ∧
      db'.likes = dupDb.likes.erase { userId := 1, postId := 7 } :=
  duplicate_engagement_amended dupDb 5 (some 1) 1 2 7 (feedPost 7 2 1)
    { userId := 1, postId := 7 } rfl (by decide) rfl rfl rfl

/-- Counterexample to C9 as stated: play recording invoked with no
authenticated user id does not raise — it returns a non-error
`{recorded: false, reason: "anonymous"}` result, leaving the store
unchanged. -/
theorem recordPlay_anonymous_not_error_counterexample :
    recordPlay likeDb 5 none 7 none = .ok (.notRecordedAnonymous, likeDb) := rfl

/-- C9 (amended): with no authenticated user id the follow, unfollow, like,
repost, comment, playback-reporting and system-update mutations raise
"Not authenticated" and perform no writes; play recording instead returns a
non-error anonymous result without writing; share creation succeeds
anonymously, attributing the share reference to the post's author and
writing it (with no notification, as creator = author); and the feed and
notification queries succeed as anonymous reads. -/
theorem anonymous_caller_semantics (db : DB) (now : Nat) (target : UserId) (pid : PostId)
    (content : String) (trackUrl trackTitle trackThumbnail : Option String)
    (ct dur : Nat) (playing : Bool) (msg : String) (rcp : Option UserId)
    (code : String) (post : Post) (limit withinDays : Option Nat)
    (hpost : db.posts.find? (fun p => p.id == pid) = some post)
    (hnoref : db.shareReferences.find? (fun ref =>
        ref.postId == pid && ref.creatorId == post.authorId) = none) :
    followUser db now none target = .error "Not authenticated" ∧
    unfollowUser db none target = .error "Not authenticated" ∧
    toggleLike db now none pid = .error "Not authenticated" ∧
    toggleRepost db now none pid = .error "Not authenticated" ∧
    addComment db now none pid content = .error "Not authenticated" ∧
    upsertPlaybackState db now none trackUrl trackTitle trackThumbnail ct dur playing
      = .error "Not authenticated" ∧
    createSystemUpdateNotification db now none msg rcp = .error "Not authenticated" ∧
    recordPlay db now none pid trackUrl = .ok (.notRecordedAnonymous, db) ∧
    (∃ db', createShareReference db now none pid code = .ok (code, db') ∧
      db'.shareReferences = db.shareReferences ++
        [{ code := code, postId := pid, creatorId := post.authorId,
           createdAt := now, clicks := 0 }] ∧
      db'.notifications = db.notifications) ∧
    getNotifications db now none limit withinDays = [] ∧
    getFeedPosts db none limit = (postsDesc db).take (effectiveLimit limit) := by
  refine ⟨rfl, rfl, rfl, rfl, rfl, rfl, rfl, rfl, ?_, rfl, ?_⟩
  · simp only [createShareReference, hpost, Option.getD_none, hnoref, bne_self_eq_false,
      Bool.false_eq_true, if_false]
    exact ⟨_, rfl, rfl, rfl⟩
  · simp only [getFeedPosts]
    rw [List.take_take]
    congr 1
    have : effectiveLimit limit ≤ effectiveLimit limit * 2 := by omega
    omega

/-- Witness for C9 (amended) at a concrete store with post 7. -/
theorem anonymous_caller_semantics_witness :
    followUser likeDb 5 none 2 = .error "Not authenticated" ∧
    unfollowUser likeDb none 2 = .error "Not authenticated" ∧
    toggleLike likeDb 5 none 7 = .error "Not authenticated" ∧
    toggleRepost likeDb 5 none 7 = .error "Not authenticated" ∧
    addComment likeDb 5 none 7 "hi" = .error "Not authenticated" ∧
    upsertPlaybackState likeDb 5 none none none none 0 0 false
      = .error "Not authenticated" ∧
    createSystemUpdateNotification likeDb 5 none "m" none = .error "Not authenticated" ∧
    recordPlay likeDb 5 none 7 none = .ok (.notRecordedAnonymous, likeDb) ∧
    (∃ db', createShareReference likeDb 5 none 7 "c0de" = .ok ("c0de", db') ∧
      db'.shareReferences = likeDb.shareReferences ++
        [{ code := "c0de", postId := 7, creatorId := (feedPost 7 2 1).authorId,
           createdAt := 5, clicks := 0 }] ∧
      db'.notifications = likeDb.notifications) ∧
    getNotifications likeDb 5 none (some 3) none = [] ∧
    getFeedPosts likeDb none (some 3) = (postsDesc likeDb).take (effectiveLimit (some 3)) :=
  anonymous_caller_semantics likeDb 5 2 7 "hi" none none none 0 0 false "m" none
    "c0de" (feedPost 7 2 1) (some 3) none rfl rfl

theorem selfNotifFree_of_eq (db db' : DB)
    (hn : db'.notifications = db.notifications) (h : SelfNotifFree db) :
    SelfNotifFree db' := by
  intro row hrow
  rw [hn] at hrow
  exact h row hrow

theorem selfNotifFree_patchPost (db : DB) (pid : PostId) (f : Post → Post)
    (h : SelfNotifFree db) : SelfNotifFree (patchPost db pid f) := h

theorem insert_selfNotifFree (db : DB) (now : Nat) (args : NotifArgs)
    (hfree : SelfNotifFree db)
    (hargs : engagementType args.type = true → args.actorId ≠ some args.recipientId) :
    SelfNotifFree (insertNotification db now args).1 := by
  intro row hrow
  unfold insertNotification schedulePush at hrow
  rcases List.mem_append.mp hrow with h | h
  · exact hfree row h
  · simp at h
    subst h
    intro ht
    exact hargs ht

theorem upsert_selfNotifFree (db : DB) (now : Nat) (args : NotifArgs)
    (hwf : NotifIdsWF db) (hfree : SelfNotifFree db)
    (hargs : engagementType args.type = true → args.actorId ≠ some args.recipientId) :
    SelfNotifFree (upsertNotification db now args).1 := by
  intro row hrow
  rcases upsertNotification_mem db now args hwf row hrow with h | ⟨hr, ht, ha⟩
  · exact hfree row h
  · intro hty
    rw [ha, hr]
    rw [ht] at hty
    exact hargs hty

theorem foldl_upsert_selfNotifFree (now : Nat) (argsOf : UserId → NotifArgs)
    (fids : List UserId) (db : DB) (hwf : NotifIdsWF db) (hfree : SelfNotifFree db)
    (hargs : ∀ f ∈ fids, engagementType (argsOf f).type = true →
      (argsOf f).actorId ≠ some (argsOf f).recipientId) :
    SelfNotifFree (fids.foldl (fun acc fid =>
      (upsertNotification acc now (argsOf fid)).1) db) := by
  intro row hrow
  rcases foldl_upsert_mem now argsOf fids db hwf row hrow with h | ⟨f, hf, hr, ht, ha⟩
  · exact hfree row h
  · intro hty
    rw [ha, hr]
    rw [ht] at hty
    exact hargs f hf hty

theorem delete_selfNotifFree (db : DB) (r : UserId) (gk : GroupKey)
    (hfree : SelfNotifFree db) :
    SelfNotifFree (deleteNotificationByGroup db r gk) := by
  intro row hrow
  have hrow' : row ∈ db.notifications.filter
      (fun row => !(notifMatchesGroup r gk row)) := hrow
  exact hfree row (List.mem_of_mem_filter hrow')

theorem trending_selfNotifFree (db : DB) (now : Nat) (pid : PostId)
    (authorId : UserId) (b a : Nat) (hwf : NotifIdsWF db) (hfree : SelfNotifFree db) :
    SelfNotifFree (notifyTrendingInNetwork db now pid authorId b a) := by
  simp only [notifyTrendingInNetwork]
  split
  · exact hfree
  · split
    · exact hfree
    · refine foldl_upsert_selfNotifFree now _ _ db hwf hfree ?_
      intro f hf _ h
      have hne : f ≠ authorId := by simpa using (List.mem_filter.mp hf).2
      exact hne (Option.some.inj h).symm

theorem getSeedUserIds_ne (db : DB) (raw : String) (ex : UserId) :
    ∀ s ∈ getSeedUserIds db raw ex, s ≠ ex := by
  intro s hs
  simp only [getSeedUserIds] at hs
  split at hs
  · simp at hs
  · obtain ⟨user, huser, hid⟩ := List.mem_map.mp hs
    have h2 := List.mem_filter.mp (List.mem_of_mem_filter huser)
    rw [← hid]
    simpa using h2.2

theorem createPostSeedStep_inv (now : Nat) (userId : UserId) (postId : PostId)
    (ptype : PostType) (acc : DB × Nat) (seedId : UserId)
    (hwf : NotifIdsWF acc.1) (hfree : SelfNotifFree acc.1) (hne : seedId ≠ userId) :
    NotifIdsWF (createPostSeedStep now userId postId ptype acc seedId).1 ∧
    SelfNotifFree (createPostSeedStep now userId postId ptype acc seedId).1 := by
  unfold createPostSeedStep
  split
  · exact ⟨hwf, hfree⟩
  · constructor
    · exact upsertNotification_wf _ now _ hwf
    · refine upsert_selfNotifFree _ now _ ?_ ?_ ?_
      · exact hwf
      · exact hfree
      · intro _ h
        exact hne (Option.some.inj h)

theorem createPost_seedFold_inv (now : Nat) (userId : UserId) (postId : PostId)
    (ptype : PostType) :
    ∀ (sids : List UserId) (acc : DB × Nat), NotifIdsWF acc.1 → SelfNotifFree acc.1 →
      (∀ s ∈ sids, s ≠ userId) →
      NotifIdsWF (sids.foldl (createPostSeedStep now userId postId ptype) acc).1 ∧
      SelfNotifFree (sids.foldl (createPostSeedStep now userId postId ptype) acc).1 := by
  intro sids
  induction sids with
  | nil => intro acc hwf hfree _; exact ⟨hwf, hfree⟩
  | cons s rest ih =>
    intro acc hwf hfree hne
    rw [List.foldl_cons]
    obtain ⟨hw2, hf2⟩ := createPostSeedStep_inv now userId postId ptype acc s hwf hfree
      (hne s (List.mem_cons_self s rest))
    exact ih _ hw2 hf2 (fun x hx => hne x (List.mem_cons_of_mem s hx))

theorem warmWelcomeSeedStep_inv (now : Nat) (userId : UserId) (acc : DB × Nat)
    (seedId : UserId) (hwf : NotifIdsWF acc.1) (hfree : SelfNotifFree acc.1)
    (hne : seedId ≠ userId) :
    NotifIdsWF (warmWelcomeSeedStep now userId acc seedId).1 ∧
    SelfNotifFree (warmWelcomeSeedStep now userId acc seedId).1 := by
  unfold warmWelcomeSeedStep
  split
  · exact ⟨hwf, hfree⟩
  · constructor
    · exact insertNotification_wf _ now _ hwf
    · refine insert_selfNotifFree _ now _ ?_ ?_
      · exact hfree
      · intro _ h
        exact hne (Option.some.inj h)

theorem warmWelcome_seedFold_inv (now : Nat) (userId : UserId) :
    ∀ (sids : List UserId) (acc : DB × Nat), NotifIdsWF acc.1 → SelfNotifFree acc.1 →
      (∀ s ∈ sids, s ≠ userId) →
      NotifIdsWF (sids.foldl (warmWelcomeSeedStep now userId) acc).1 ∧
      SelfNotifFree (sids.foldl (warmWelcomeSeedStep now userId) acc).1 := by
  intro sids
  induction sids with
  | nil => intro acc hwf hfree _; exact ⟨hwf, hfree⟩
  | cons s rest ih =>
    intro acc hwf hfree hne
    rw [List.foldl_cons]
    obtain ⟨hw2, hf2⟩ := warmWelcomeSeedStep_inv now userId acc s hwf hfree
      (hne s (List.mem_cons_self s rest))
    exact ih _ hw2 hf2 (fun x hx => hne x (List.mem_cons_of_mem s hx))

theorem followUser_selfNotifFree (db : DB) (now : Nat) (auth : Option UserId)
    (target : UserId) (db' : DB) (hwf : NotifIdsWF db) (hfree : SelfNotifFree db)
    (hok : followUser db now auth target = .ok db') : SelfNotifFree db' := by
  simp only [followUser] at hok
  split at hok
  · exact Except.noConfusion hok
  · split at hok
    · exact Except.noConfusion hok
    · split at hok
      · exact Except.noConfusion hok
      · rename_i u heq hne hfol
        injection hok with hdb
        subst hdb
        refine upsert_selfNotifFree _ now _ ?_ ?_ ?_
        · exact hwf
        · exact hfree
        · intro _ h
          exact hne (Option.some.inj h)

theorem toggleLike_selfNotifFree (db : DB) (now : Nat) (auth : Option UserId)
    (pid : PostId) (liked : Bool) (db' : DB)
    (hwf : NotifIdsWF db) (hfree : SelfNotifFree db)
    (hok : toggleLike db now auth pid = .ok (liked, db')) : SelfNotifFree db' := by
  simp only [toggleLike] at hok
  split at hok
  · exact Except.noConfusion hok
  · split at hok
    · exact Except.noConfusion hok
    · split at hok
      · -- existing like: unlike retracts
        split at hok
        · injection hok with h1
          injection h1 with hb hdb
          subst hdb
          exact delete_selfNotifFree _ _ _ hfree
        · injection hok with h1
          injection h1 with hb hdb
          subst hdb
          exact hfree
      · -- fresh like
        split at hok
        · rename_i hauthor
          injection hok with h1
          injection h1 with hb hdb
          subst hdb
          refine trending_selfNotifFree _ now pid _ _ _ ?_ ?_
          · refine upsertNotification_wf _ now _ ?_
            exact hwf
          · refine upsert_selfNotifFree _ now _ ?_ ?_ ?_
            · exact hwf
            · exact hfree
            · intro _ h
              exact absurd (Option.some.inj h).symm (by simpa using hauthor)
        · injection hok with h1
          injection h1 with hb hdb
          subst hdb
          refine trending_selfNotifFree _ now pid _ _ _ ?_ ?_
          · exact hwf
          · exact hfree

theorem toggleRepost_selfNotifFree (db : DB) (now : Nat) (auth : Option UserId)
    (pid : PostId) (reposted : Bool) (db' : DB)
    (hwf : NotifIdsWF db) (hfree : SelfNotifFree db)
    (hok : toggleRepost db now auth pid = .ok (reposted, db')) : SelfNotifFree db' := by
  simp only [toggleRepost] at hok
  split at hok
  · exact Except.noConfusion hok
  · split at hok
    · exact Except.noConfusion hok
    · split at hok
      · split at hok
        · injection hok with h1
          injection h1 with hb hdb
          subst hdb
          exact delete_selfNotifFree _ _ _ hfree
        · injection hok with h1
          injection h1 with hb hdb
          subst hdb
          exact hfree
      · split at hok
        · rename_i hauthor
          injection hok with h1
          injection h1 with hb hdb
          subst hdb
          refine upsert_selfNotifFree _ now _ ?_ ?_ ?_
          · exact hwf
          · exact hfree
          · intro _ h
            exact absurd (Option.some.inj h).symm (by simpa using hauthor)
        · injection hok with h1
          injection h1 with hb hdb
          subst hdb
          exact hfree

theorem addComment_selfNotifFree (db : DB) (now : Nat) (auth : Option UserId)
    (pid : PostId) (content : String) (cid : CommentId) (db' : DB)
    (hwf : NotifIdsWF db) (hfree : SelfNotifFree db)
    (hok : addComment db now auth pid content = .ok (cid, db')) : SelfNotifFree db' := by
  simp only [addComment] at hok
  split at hok
  · exact Except.noConfusion hok
  · split at hok
    · exact Except.noConfusion hok
    · split at hok
      · exact Except.noConfusion hok
      · split at hok
        · rename_i hauthor
          injection hok with h1
          injection h1 with hc hdb
          subst hdb
          refine foldl_upsert_selfNotifFree now _ _ _ ?_ ?_ ?_
          · refine upsertNotification_wf _ now _ ?_
            refine notifIdsWF_of_eq db _ ?_ ?_ hwf
            · rfl
            · exact Nat.le_succ _
          · refine upsert_selfNotifFree _ now _ ?_ ?_ ?_
            · refine notifIdsWF_of_eq db _ ?_ ?_ hwf
              · rfl
              · exact Nat.le_succ _
            · exact hfree
            · intro _ h
              exact absurd (Option.some.inj h).symm (by simpa using hauthor)
          · intro f hf _ h
            have hb := (List.mem_filter.mp hf).2
            simp only [Bool.and_eq_true, bne_iff_ne] at hb
            exact hb.1 (Option.some.inj h).symm
        · injection hok with h1
          injection h1 with hc hdb
          subst hdb
          refine foldl_upsert_selfNotifFree now _ _ _ ?_ ?_ ?_
          · refine notifIdsWF_of_eq db _ ?_ ?_ hwf
            · rfl
            · exact Nat.le_succ _
          · exact hfree
          · intro f hf _ h
            have hb := (List.mem_filter.mp hf).2
            simp only [Bool.and_eq_true, bne_iff_ne] at hb
            exact hb.1 (Option.some.inj h).symm

theorem upsertPlaybackState_selfNotifFree (db : DB) (now : Nat) (auth : Option UserId)
    (trackUrl trackTitle trackThumbnail : Option String)
    (currentTime duration : Nat) (isPlaying : Bool) (db' : DB)
    (hwf : NotifIdsWF db) (hfree : SelfNotifFree db)
    (hok : upsertPlaybackState db now auth trackUrl trackTitle trackThumbnail
      currentTime duration isPlaying = .ok db') : SelfNotifFree db' := by
  simp only [upsertPlaybackState] at hok
  split at hok
  · exact Except.noConfusion hok
  · injection hok with hdb
    subst hdb
    repeat' split
    all_goals
      first
      | exact hfree
      | (refine foldl_upsert_selfNotifFree now _ _ _ ?_ ?_ ?_
         · exact hwf
         · exact hfree
         · intro f hf _ h
           have hb := (List.mem_filter.mp hf).2
           simp only [bne_iff_ne] at hb
           exact hb (Option.some.inj h).symm)

theorem createShareReference_selfNotifFree (db : DB) (now : Nat)
    (auth : Option UserId) (pid : PostId) (freshCode code : String) (db' : DB)
    (hwf : NotifIdsWF db) (hfree : SelfNotifFree db)
    (hok : createShareReference db now auth pid freshCode = .ok (code, db')) :
    SelfNotifFree db' := by
  simp only [createShareReference] at hok
  split at hok
  · exact Except.noConfusion hok
  · split at hok
    · injection hok with h1
      injection h1 with hc hdb
      subst hdb
      exact hfree
    · split at hok
      · rename_i hcreator
        injection hok with h1
        injection h1 with hc hdb
        subst hdb
        refine upsert_selfNotifFree _ now _ ?_ ?_ ?_
        · exact hwf
        · exact hfree
        · intro _ h
          rw [Option.some.inj h] at hcreator
          simp at hcreator
      · injection hok with h1
        injection h1 with hc hdb
        subst hdb
        exact hfree

theorem createSystemUpdateNotification_selfNotifFree (db : DB) (now : Nat)
    (auth : Option UserId) (msg : String) (rcp : Option UserId) (db' : DB)
    (hwf : NotifIdsWF db) (hfree : SelfNotifFree db)
    (hok : createSystemUpdateNotification db now auth msg rcp = .ok db') :
    SelfNotifFree db' := by
  simp only [createSystemUpdateNotification] at hok
  split at hok
  · exact Except.noConfusion hok
  · injection hok with hdb
    subst hdb
    exact upsert_selfNotifFree _ now _ hwf hfree (fun h => Bool.noConfusion h)

theorem createPost_selfNotifFree (db : DB) (now : Nat) (auth : Option UserId)
    (raw : String) (args : CreatePostArgs) (pid : PostId) (db' : DB)
    (hwf : NotifIdsWF db) (hfree : SelfNotifFree db)
    (hok : createPost db now auth raw args = .ok (pid, db')) : SelfNotifFree db' := by
  simp only [createPost] at hok
  split at hok
  · exact Except.noConfusion hok
  · split at hok
    · split at hok
      · injection hok with h1
        injection h1 with hp hdb
        subst hdb
        refine selfNotifFree_patchPost _ _ _ ?_
        refine (createPost_seedFold_inv now _ _ _ _ _ ?_ ?_ ?_).2
        · exact notifIdsWF_of_eq db _ rfl (Nat.le_succ _) hwf
        · exact hfree
        · exact getSeedUserIds_ne _ raw _
      · injection hok with h1
        injection h1 with hp hdb
        subst hdb
        refine (createPost_seedFold_inv now _ _ _ _ _ ?_ ?_ ?_).2
        · exact notifIdsWF_of_eq db _ rfl (Nat.le_succ _) hwf
        · exact hfree
        · exact getSeedUserIds_ne _ raw _
    · injection hok with h1
      injection h1 with hp hdb
      subst hdb
      exact hfree

theorem ensureSeedWarmWelcome_selfNotifFree (db : DB) (now : Nat)
    (auth : Option UserId) (raw : String) (r : WarmWelcomeResult) (db' : DB)
    (hwf : NotifIdsWF db) (hfree : SelfNotifFree db)
    (hok : ensureSeedWarmWelcome db now auth raw = .ok (r, db')) : SelfNotifFree db' := by
  simp only [ensureSeedWarmWelcome] at hok
  repeat' split at hok
  all_goals
    first
    | exact Except.noConfusion hok
    | (injection hok with h1
       injection h1 with hr hdb
       subst hdb
       first
       | exact hfree
       | (refine (warmWelcome_seedFold_inv now _ _ _ ?_ ?_ ?_).2
          · exact hwf
          · exact hfree
          · exact getSeedUserIds_ne _ raw _))

/-- C10: no self-notifications from engagement — no operation creates or
refreshes a notification of an engagement type (like, comment, follow,
mention, repost, share, friend_listening, network_trending) whose recipient
equals its actor.  Starting from a store with unique notification ids and no
stored self-notification, every mutation that writes notifications preserves
the invariant: engaging with one's own post produces no notification, a
self-mention is filtered out of the mention fan-out, and the playback and
trending fan-outs exclude the broadcasting/authoring user. -/
theorem no_self_notifications (db : DB) (now : Nat) (auth : Option UserId)
    (hwf : NotifIdsWF db) (hfree : SelfNotifFree db) :
    (∀ target db', followUser db now auth target = .ok db' → SelfNotifFree db') ∧
    (∀ pid liked db', toggleLike db now auth pid = .ok (liked, db') →
      SelfNotifFree db') ∧
    (∀ pid reposted db', toggleRepost db now auth pid = .ok (reposted, db') →
      SelfNotifFree db') ∧
    (∀ pid content cid db', addComment db now auth pid content = .ok (cid, db') →
      SelfNotifFree db') ∧
    (∀ trackUrl trackTitle trackThumbnail currentTime duration isPlaying db',
      upsertPlaybackState db now auth trackUrl trackTitle trackThumbnail
        currentTime duration isPlaying = .ok db' → SelfNotifFree db') ∧
    (∀ pid freshCode code db',
      createShareReference db now auth pid freshCode = .ok (code, db') →
      SelfNotifFree db') ∧
    (∀ msg rcp db', createSystemUpdateNotification db now auth msg rcp = .ok db' →
      SelfNotifFree db') ∧
    (∀ raw args pid db', createPost db now auth raw args = .ok (pid, db') →
      SelfNotifFree db') ∧
    (∀ raw r db', ensureSeedWarmWelcome db now auth raw = .ok (r, db') →
      SelfNotifFree db') :=
  ⟨fun t db' hok => followUser_selfNotifFree db now auth t db' hwf hfree hok,
   fun pid liked db' hok => toggleLike_selfNotifFree db now auth pid liked db' hwf hfree hok,
   fun pid rp db' hok => toggleRepost_selfNotifFree db now auth pid rp db' hwf hfree hok,
   fun pid c cid db' hok => addComment_selfNotifFree db now auth pid c cid db' hwf hfree hok,
   fun tu tt th ct du ip db' hok =>
     upsertPlaybackState_selfNotifFree db now auth tu tt th ct du ip db' hwf hfree hok,
   fun pid fc c db' hok =>
     createShareReference_selfNotifFree db now auth pid fc c db' hwf hfree hok,
   fun m rc db' hok =>
     createSystemUpdateNotification_selfNotifFree db now auth m rc db' hwf hfree hok,
   fun raw args pid db' hok =>
     createPost_selfNotifFree db now auth raw args pid db' hwf hfree hok,
   fun raw r db' hok =>
     ensureSeedWarmWelcome_selfNotifFree db now auth raw r db' hwf hfree hok⟩

/-- Witness for C10: the invariant hypotheses hold of the concrete store
`likeDb`, and the theorem yields the invariant for the store produced by a
concrete system-update call. -/
theorem no_self_notifications_witness :
    NotifIdsWF likeDb ∧ SelfNotifFree likeDb ∧ SelfNotifFree sysRes :=
  ⟨⟨by decide, by decide⟩, fun row hrow => absurd hrow (List.not_mem_nil row),
   (no_self_notifications likeDb 5 (some 1) ⟨by decide, by decide⟩
     (fun row hrow => absurd hrow (List.not_mem_nil row))).2.2.2.2.2.2.1
       "m" none sysRes rfl⟩

end SocialMusic
